import Mathlib

/-!
Shallow embedding of the core of the `async-graphql` dynamic-schema runtime:
the registry data model, the dynamic type builders (`Enum`, `Field`,
`InputValue`, `FieldValue`) from `src/dynamic/`, and the validation
traversal engine from `src/validation/visitor.rs`.

Rust `IndexMap`s are embedded as association lists that preserve insertion
order; Rust `&mut` state threading becomes explicit state passing; the
traversal, which can panic (`unwrap`, index-out-of-bounds) and can diverge
on cyclic fragment spreads, is embedded with a fuel parameter and a result
type distinguishing normal return, panic, and fuel exhaustion.

The registry module itself (`registry.rs`) is not part of the sources under
verification; everywhere it is needed its definitions are modelled from the
specification and marked as such.
-/

set_option maxHeartbeats 1000000

namespace AsyncGraphql

/-- A source position, as produced by the GraphQL parser (`Pos {line, column}`). -/
structure Pos where
  line : Nat
  column : Nat
deriving DecidableEq, Repr

/-- A structured validation error: `RuleError { locations, message }`. -/
structure RuleError where
  locations : List Pos
  message : String
deriving DecidableEq, Repr

/-- A GraphQL literal value from the parser
(`Null | Boolean | Int | Float | String | Enum | List | Object | Variable`).
The `f64` payload of `Float` is embedded as its raw bit pattern. -/
inductive Value where
  | null : Value
  | boolean : Bool → Value
  | int : Int → Value
  | float : Nat → Value
  | str : String → Value
  | enum : String → Value
  | list : List Value → Value
  | object : List (String × Value) → Value
  | variable : String → Value

/-- Insertion-order-preserving map lookup (`IndexMap::get`): first matching key. -/
def indexMapGet {α : Type} : List (String × α) → String → Option α
  | [], _ => none
  | (k', v') :: rest, k => if k' = k then some v' else indexMapGet rest k

/-- Insertion-order-preserving map insert (`IndexMap::insert`): an existing
key keeps its position and gets the new value; a fresh key is appended. -/
def indexMapInsert {α : Type} : List (String × α) → String → α → List (String × α)
  | [], k, v => [(k, v)]
  | (k', v') :: rest, k, v =>
    if k' = k then (k, v) :: rest else (k', v') :: indexMapInsert rest k v

/-- Syntactic type reference: `Named(name)`, `List(inner)`, `NonNull(inner)`. -/
inductive TypeRef where
  | named : String → TypeRef
  | list : TypeRef → TypeRef
  | nonNull : TypeRef → TypeRef
deriving DecidableEq, Repr

/-- GraphQL textual form of a TypeRef (`Foo`, `[Foo]`, `Foo!`). -/
def TypeRef.toText : TypeRef → String
  | .named n => n
  | .list inner => "[" ++ inner.toText ++ "]"
  | .nonNull inner => inner.toText ++ "!"

/-- Modelled from the spec: the base-named type of a textual TypeRef is
obtained by stripping the list / non-null modifier characters
(`registry::MetaTypeName::concrete_typename`, not under `src/`). -/
def concreteTypename (s : String) : String :=
  String.mk (s.data.filter (fun c => c ≠ '[' ∧ c ≠ ']' ∧ c ≠ '!'))

/-- Deprecation status: `NoDeprecated` or `Deprecated { reason }`. -/
inductive Deprecation where
  | noDeprecated : Deprecation
  | deprecated : Option String → Deprecation
deriving DecidableEq, Repr

/-- A registered enum value descriptor (`registry::MetaEnumValue`); the field
set is the one written by `Enum::register` in `src/dynamic/enum.rs`. The
visibility callback is embedded as an `Option Unit` placeholder since no
claim inspects it. -/
structure MetaEnumValue where
  name : String
  description : Option String
  deprecation : Deprecation
  visible : Option Unit
  inaccessible : Bool
  tags : List String
deriving DecidableEq, Repr

/-- A registered input value descriptor (`registry::MetaInputValue`); the
field set is the one written by `InputValue::to_meta_input_value` in
`src/dynamic/input_value.rs` (type and default value in textual form). -/
structure MetaInputValue where
  name : String
  description : Option String
  ty : String
  default_value : Option String
  visible : Option Unit
  inaccessible : Bool
  tags : List String
  is_secret : Bool
deriving DecidableEq, Repr

/-- Modelled from the spec: a registered field descriptor (`registry::MetaField`,
not under `src/`) — name, optional description, arguments in insertion order,
output TypeRef in textual form, deprecation. -/
structure MetaField where
  name : String
  description : Option String
  args : List (String × MetaInputValue)
  ty : String
  deprecation : Deprecation
deriving DecidableEq, Repr

/-- Modelled from the spec: the registered type sum (`registry::MetaType` /
`registry::Type`, not under `src/`) with variants Object, Interface, Union,
Enum, InputObject, Scalar. The Enum payload is exactly what
`Enum::register` writes; the other payloads carry the spec's per-variant
attributes that the claims consult (name, field maps, member sets, value
maps). -/
inductive MetaType where
  | object : (name : String) → (fields : List (String × MetaField)) →
      (implements : List String) → MetaType
  | interface : (name : String) → (fields : List (String × MetaField)) →
      (possible_types : List String) → MetaType
  | union : (name : String) → (possible_types : List String) → MetaType
  | enum : (name : String) → (description : Option String) →
      (enum_values : List (String × MetaEnumValue)) → (visible : Option Unit) →
      (inaccessible : Bool) → (tags : List String) →
      (rust_typename : Option String) → MetaType
  | inputObject : (name : String) → (input_fields : List (String × MetaInputValue)) → MetaType
  | scalar : (name : String) → MetaType
deriving DecidableEq, Repr

/-- Modelled from the spec: every MetaType variant carries a unique type name. -/
def MetaType.name : MetaType → String
  | .object n _ _ => n
  | .interface n _ _ => n
  | .union n _ => n
  | .enum n _ _ _ _ _ _ => n
  | .inputObject n _ => n
  | .scalar n => n

/-- Modelled from the spec: field lookup on the current type — Objects and
Interfaces carry a field map, other kinds have no fields
(`registry::Type::field_by_name`, not under `src/`). -/
def MetaType.field_by_name : MetaType → String → Option MetaField
  | .object _ fields _, n => indexMapGet fields n
  | .interface _ fields _, n => indexMapGet fields n
  | _, _ => none

/-- Modelled from the spec: the registry — insertion-ordered mapping from
type name to MetaType, plus the root operation type names
(`registry::Registry`, not under `src/`). -/
structure Registry where
  types : List (String × MetaType)
  query_type : String
  mutation_type : Option String
  subscription_type : Option String
deriving DecidableEq, Repr

/-- Modelled from the spec: resolve a textual TypeRef's base-named type
through the registry (`registry::Registry::basic_type_by_typename`, not
under `src/`). -/
def Registry.basic_type_by_typename (r : Registry) (ty : String) : Option MetaType :=
  indexMapGet r.types (concreteTypename ty)

/-! ### The parsed document AST (`graphql_parser::query`) -/

/-- A fragment type condition: `TypeCondition::On(name)`. -/
inductive TypeCondition where
  | On : String → TypeCondition

/-- A directive occurrence: position, name, `(name, Value)` argument pairs. -/
structure Directive where
  position : Pos
  name : String
  arguments : List (String × Value)

/-- A variable definition: position, variable name, declared type, default. -/
structure VariableDefinition where
  position : Pos
  name : String
  var_type : TypeRef
  default_value : Option Value

/-- A fragment spread selection: position, fragment name, directives. -/
structure FragmentSpread where
  position : Pos
  fragment_name : String
  directives : List Directive

mutual

/-- A selection: `Field | FragmentSpread | InlineFragment`. -/
inductive Selection where
  | field : Field → Selection
  | fragmentSpread : FragmentSpread → Selection
  | inlineFragment : InlineFragment → Selection

/-- A field selection: position, alias, name, arguments, directives, nested
selection set. -/
inductive Field where
  | mk : (position : Pos) → (alias_ : Option String) → (name : String) →
      (arguments : List (String × Value)) → (directives : List Directive) →
      (selection_set : SelectionSet) → Field

/-- A braced selection set: source span and its selections. -/
inductive SelectionSet where
  | mk : (span : Pos × Pos) → (items : List Selection) → SelectionSet

/-- An inline fragment: position, optional type condition, directives,
selection set. -/
inductive InlineFragment where
  | mk : (position : Pos) → (type_condition : Option TypeCondition) →
      (directives : List Directive) → (selection_set : SelectionSet) → InlineFragment

end

def Field.position : Field → Pos
  | .mk p _ _ _ _ _ => p

def Field.name : Field → String
  | .mk _ _ n _ _ _ => n

def Field.arguments : Field → List (String × Value)
  | .mk _ _ _ a _ _ => a

def Field.directives : Field → List Directive
  | .mk _ _ _ _ d _ => d

def Field.selection_set : Field → SelectionSet
  | .mk _ _ _ _ _ s => s

def SelectionSet.items : SelectionSet → List Selection
  | .mk _ items => items

def InlineFragment.position : InlineFragment → Pos
  | .mk p _ _ _ => p

def InlineFragment.type_condition : InlineFragment → Option TypeCondition
  | .mk _ tc _ _ => tc

def InlineFragment.directives : InlineFragment → List Directive
  | .mk _ _ d _ => d

def InlineFragment.selection_set : InlineFragment → SelectionSet
  | .mk _ _ _ s => s

/-- A fragment definition: position, name, type condition, directives,
selection set. -/
structure FragmentDefinition where
  position : Pos
  name : String
  type_condition : TypeCondition
  directives : List Directive
  selection_set : SelectionSet

/-- The common shape of the parser's `Query`, `Mutation` and `Subscription`
structures: position, optional operation name, variable definitions,
directives, selection set. -/
structure Operation where
  position : Pos
  name : Option String
  variable_definitions : List VariableDefinition
  directives : List Directive
  selection_set : SelectionSet

/-- An operation definition: a bare selection set (shorthand), or a named
query / mutation / subscription. -/
inductive OperationDefinition where
  | selectionSet : SelectionSet → OperationDefinition
  | query : Operation → OperationDefinition
  | mutation : Operation → OperationDefinition
  | subscription : Operation → OperationDefinition

/-- A document definition: `Operation | Fragment`. -/
inductive Definition where
  | operation : OperationDefinition → Definition
  | fragment : FragmentDefinition → Definition

/-- A parsed document: its list of definitions. -/
structure Document where
  definitions : List Definition

/-! ### The traversal context (`VisitorContext` in `visitor.rs`) -/

/-- The fragment map built by `VisitorContext::new`: collect the
`(name, fragment)` pairs of every fragment definition into a map; for
duplicate names the later definition wins (HashMap `collect`). -/
def collectFragments (defs : List Definition) : List (String × FragmentDefinition) :=
  defs.foldl
    (fun acc d =>
      match d with
      | .fragment fragment => indexMapInsert acc fragment.name fragment
      | _ => acc)
    []

/-- The traversal context: registry borrow, accumulated errors, the stack of
current schema types, and the fragment map. The stack is embedded with its
HEAD as the most recently pushed entry (the top of the Rust `Vec`). -/
structure VisitorContext where
  registry : Registry
  errors : List RuleError
  type_stack : List MetaType
  fragments : List (String × FragmentDefinition)

/-- `VisitorContext::new(registry, doc)`: empty errors, empty type stack,
fragment map prebuilt from the document. -/
def VisitorContext.new (registry : Registry) (doc : Document) : VisitorContext :=
  { registry := registry
    errors := []
    type_stack := []
    fragments := collectFragments doc.definitions }

/-- `report_error`: push a RuleError onto the error vector. -/
def VisitorContext.report_error (ctx : VisitorContext) (locations : List Pos)
    (msg : String) : VisitorContext :=
  { ctx with errors := ctx.errors ++ [{ locations := locations, message := msg }] }

/-- `append_errors`: extend the error vector. -/
def VisitorContext.append_errors (ctx : VisitorContext) (errs : List RuleError) :
    VisitorContext :=
  { ctx with errors := ctx.errors ++ errs }

/-- `current_type`: the top of the type stack. The source unwraps
(`self.type_stack.last().unwrap()`), panicking on an empty stack; the
embedding returns `none` there and the traversal maps that to a panic. -/
def VisitorContext.current_type (ctx : VisitorContext) : Option MetaType :=
  ctx.type_stack.head?

/-- `parent_type`: `None` when fewer than two entries are on the stack, else
the entry at index `len - 2` of the Rust `Vec`, i.e. index 1 of the
head-as-top embedded stack. -/
def VisitorContext.parent_type (ctx : VisitorContext) : Option MetaType :=
  if 2 ≤ ctx.type_stack.length then ctx.type_stack.get? 1 else none

/-- `is_known_fragment`. -/
def VisitorContext.is_known_fragment (ctx : VisitorContext) (name : String) : Bool :=
  (indexMapGet ctx.fragments name).isSome

/-- `fragment`: look a fragment definition up by name. -/
def VisitorContext.fragment (ctx : VisitorContext) (name : String) :
    Option FragmentDefinition :=
  indexMapGet ctx.fragments name

/-- Result of a traversal step: normal return, a Rust panic (`unwrap` failure
or map-index out of bounds), or exhaustion of the embedding's fuel (the
source can recurse forever through cyclic fragment spreads; fuel makes the
embedding total and is distinguished from a panic). -/
inductive TravResult (α : Type) where
  | ok : α → TravResult α
  | panicked : TravResult α
  | fuelOut : TravResult α

/-- Sequencing of traversal steps; panic and fuel exhaustion propagate. -/
def TravResult.bind {α β : Type} (r : TravResult α) (f : α → TravResult β) :
    TravResult β :=
  match r with
  | .ok a => f a
  | .panicked => .panicked
  | .fuelOut => .fuelOut

/-- `with_type`: push `ty`, run the body, pop. When the body panics or runs
out of fuel the pop does not happen, exactly as a Rust panic would unwind
past the `pop` call. -/
def VisitorContext.with_type {α : Type} (ctx : VisitorContext) (ty : MetaType)
    (f : VisitorContext → TravResult (α × VisitorContext)) :
    TravResult (α × VisitorContext) :=
  match f { ctx with type_stack := ty :: ctx.type_stack } with
  | .ok (a, ctx') => .ok (a, { ctx' with type_stack := ctx'.type_stack.tail })
  | .panicked => .panicked
  | .fuelOut => .fuelOut

/-! ### The visitor interface and its chain composition

A rule visitor owns mutable state of some type `σ` and reacts to each AST
node. Through the public surface of `VisitorContext` a hook can read the
whole context and can only append to the error vector (`report_error`,
`append_errors`; `with_type` is push/run/pop-balanced), so a hook is
embedded as a function from its state and the context to its new state and
the list of errors it appends. Every hook defaults to a no-op, as in the
`Visitor` trait. -/

structure Visitor (σ : Type) where
  enter_document : σ → VisitorContext → Document → σ × List RuleError :=
    fun s _ _ => (s, [])
  exit_document : σ → VisitorContext → Document → σ × List RuleError :=
    fun s _ _ => (s, [])
  enter_operation_definition : σ → VisitorContext → OperationDefinition → σ × List RuleError :=
    fun s _ _ => (s, [])
  exit_operation_definition : σ → VisitorContext → OperationDefinition → σ × List RuleError :=
    fun s _ _ => (s, [])
  enter_fragment_definition : σ → VisitorContext → FragmentDefinition → σ × List RuleError :=
    fun s _ _ => (s, [])
  exit_fragment_definition : σ → VisitorContext → FragmentDefinition → σ × List RuleError :=
    fun s _ _ => (s, [])
  enter_variable_definition : σ → VisitorContext → VariableDefinition → σ × List RuleError :=
    fun s _ _ => (s, [])
  exit_variable_definition : σ → VisitorContext → VariableDefinition → σ × List RuleError :=
    fun s _ _ => (s, [])
  enter_directive : σ → VisitorContext → Directive → σ × List RuleError :=
    fun s _ _ => (s, [])
  exit_directive : σ → VisitorContext → Directive → σ × List RuleError :=
    fun s _ _ => (s, [])
  enter_argument : σ → VisitorContext → Pos → String → Value → σ × List RuleError :=
    fun s _ _ _ _ => (s, [])
  exit_argument : σ → VisitorContext → Pos → String → Value → σ × List RuleError :=
    fun s _ _ _ _ => (s, [])
  enter_selection_set : σ → VisitorContext → SelectionSet → σ × List RuleError :=
    fun s _ _ => (s, [])
  exit_selection_set : σ → VisitorContext → SelectionSet → σ × List RuleError :=
    fun s _ _ => (s, [])
  enter_selection : σ → VisitorContext → Selection → σ × List RuleError :=
    fun s _ _ => (s, [])
  exit_selection : σ → VisitorContext → Selection → σ × List RuleError :=
    fun s _ _ => (s, [])
  enter_field : σ → VisitorContext → Field → σ × List RuleError :=
    fun s _ _ => (s, [])
  exit_field : σ → VisitorContext → Field → σ × List RuleError :=
    fun s _ _ => (s, [])
  enter_fragment_spread : σ → VisitorContext → FragmentSpread → σ × List RuleError :=
    fun s _ _ => (s, [])
  exit_fragment_spread : σ → VisitorContext → FragmentSpread → σ × List RuleError :=
    fun s _ _ => (s, [])
  enter_inline_fragment : σ → VisitorContext → InlineFragment → σ × List RuleError :=
    fun s _ _ => (s, [])
  exit_inline_fragment : σ → VisitorContext → InlineFragment → σ × List RuleError :=
    fun s _ _ => (s, [])

/-- `VisitorNil`: the empty chain, every hook a no-op. -/
def VisitorNil : Visitor Unit := {}

/-- Compose one hook of `VisitorCons(head, tail)`: the head's hook runs
first; the tail's hook then sees the context with the head's errors already
appended, exactly as the sequential `&mut` calls do in the source. -/
def consHook {α β N : Type} (ha : α → VisitorContext → N → α × List RuleError)
    (hb : β → VisitorContext → N → β × List RuleError) :
    α × β → VisitorContext → N → (α × β) × List RuleError :=
  fun s ctx n =>
    let r1 := ha s.1 ctx n
    let r2 := hb s.2 { ctx with errors := ctx.errors ++ r1.2 } n
    ((r1.1, r2.1), r1.2 ++ r2.2)

/-- `consHook` for the argument hooks, whose Rust signature carries the
position, name and value separately. -/
def consHookArg {α β : Type}
    (ha : α → VisitorContext → Pos → String → Value → α × List RuleError)
    (hb : β → VisitorContext → Pos → String → Value → β × List RuleError) :
    α × β → VisitorContext → Pos → String → Value → (α × β) × List RuleError :=
  fun s ctx pos name val =>
    let r1 := ha s.1 ctx pos name val
    let r2 := hb s.2 { ctx with errors := ctx.errors ++ r1.2 } pos name val
    ((r1.1, r2.1), r1.2 ++ r2.2)

/-- `VisitorCons(head, tail)` as a single visitor: every hook invokes the
head's hook and then the tail's. -/
def visitorCons {α β : Type} (a : Visitor α) (b : Visitor β) : Visitor (α × β) :=
  { enter_document := consHook a.enter_document b.enter_document
    exit_document := consHook a.exit_document b.exit_document
    enter_operation_definition :=
      consHook a.enter_operation_definition b.enter_operation_definition
    exit_operation_definition :=
      consHook a.exit_operation_definition b.exit_operation_definition
    enter_fragment_definition :=
      consHook a.enter_fragment_definition b.enter_fragment_definition
    exit_fragment_definition :=
      consHook a.exit_fragment_definition b.exit_fragment_definition
    enter_variable_definition :=
      consHook a.enter_variable_definition b.enter_variable_definition
    exit_variable_definition :=
      consHook a.exit_variable_definition b.exit_variable_definition
    enter_directive := consHook a.enter_directive b.enter_directive
    exit_directive := consHook a.exit_directive b.exit_directive
    enter_argument := consHookArg a.enter_argument b.enter_argument
    exit_argument := consHookArg a.exit_argument b.exit_argument
    enter_selection_set := consHook a.enter_selection_set b.enter_selection_set
    exit_selection_set := consHook a.exit_selection_set b.exit_selection_set
    enter_selection := consHook a.enter_selection b.enter_selection
    exit_selection := consHook a.exit_selection b.exit_selection
    enter_field := consHook a.enter_field b.enter_field
    exit_field := consHook a.exit_field b.exit_field
    enter_fragment_spread := consHook a.enter_fragment_spread b.enter_fragment_spread
    exit_fragment_spread := consHook a.exit_fragment_spread b.exit_fragment_spread
    enter_inline_fragment := consHook a.enter_inline_fragment b.enter_inline_fragment
    exit_inline_fragment := consHook a.exit_inline_fragment b.exit_inline_fragment }

/-- `with`: extend a chain with one more visitor. The new visitor becomes
the HEAD of the resulting `VisitorCons`, the existing chain its tail
(`VisitorNil::with` / `VisitorCons::with` both read
`VisitorCons(visitor, self)`). -/
def Visitor.with_ {σ τ : Type} (self : Visitor σ) (visitor : Visitor τ) :
    Visitor (τ × σ) :=
  visitorCons visitor self

/-! ### The traversal engine (`visit` and the `visit_*` helpers) -/

/-- Invoke one hook: the visitor state advances and the errors the hook
reports are appended to the context. -/
def runHook {σ N : Type} (hook : σ → VisitorContext → N → σ × List RuleError)
    (s : σ) (ctx : VisitorContext) (n : N) : σ × VisitorContext :=
  let r := hook s ctx n
  (r.1, { ctx with errors := ctx.errors ++ r.2 })

/-- Invoke one argument hook (position, name and value are separate). -/
def runHookArg {σ : Type}
    (hook : σ → VisitorContext → Pos → String → Value → σ × List RuleError)
    (s : σ) (ctx : VisitorContext) (pos : Pos) (name : String) (val : Value) :
    σ × VisitorContext :=
  let r := hook s ctx pos name val
  (r.1, { ctx with errors := ctx.errors ++ r.2 })

/-- `visit_arguments`: for each `(name, value)` pair fire `enter_argument`
then `exit_argument` back to back; no recursion into the value. -/
def visit_arguments {σ : Type} (v : Visitor σ) (s : σ) (ctx : VisitorContext)
    (pos : Pos) (arguments : List (String × Value)) : σ × VisitorContext :=
  arguments.foldl
    (fun acc nv =>
      let a1 := runHookArg v.enter_argument acc.1 acc.2 pos nv.1 nv.2
      runHookArg v.exit_argument a1.1 a1.2 pos nv.1 nv.2)
    (s, ctx)

/-- `visit_variable_definitions`: fire enter/exit per definition. -/
def visit_variable_definitions {σ : Type} (v : Visitor σ) (s : σ)
    (ctx : VisitorContext) (variable_definitions : List VariableDefinition) :
    σ × VisitorContext :=
  variable_definitions.foldl
    (fun acc d =>
      let a1 := runHook v.enter_variable_definition acc.1 acc.2 d
      runHook v.exit_variable_definition a1.1 a1.2 d)
    (s, ctx)

/-- `visit_directives`: per directive fire `enter_directive`, visit its
arguments, fire `exit_directive`. -/
def visit_directives {σ : Type} (v : Visitor σ) (s : σ) (ctx : VisitorContext)
    (directives : List Directive) : σ × VisitorContext :=
  directives.foldl
    (fun acc d =>
      let a1 := runHook v.enter_directive acc.1 acc.2 d
      let a2 := visit_arguments v a1.1 a1.2 d.position d.arguments
      runHook v.exit_directive a2.1 a2.2 d)
    (s, ctx)

mutual

/-- `visit`: enter the document, walk the definitions, exit the document. -/
def visit {σ : Type} (fuel : Nat) (v : Visitor σ) (s : σ) (ctx : VisitorContext)
    (doc : Document) : TravResult (σ × VisitorContext) :=
  match fuel with
  | 0 => .fuelOut
  | fuel + 1 =>
    let a1 := runHook v.enter_document s ctx doc
    (visit_definitions fuel v a1.1 a1.2 doc.definitions).bind
      (fun a2 => .ok (runHook v.exit_document a2.1 a2.2 doc))

/-- `visit_definitions`: walk each definition; a fragment definition pushes
its resolved type condition, or reports `Unknown type "<name>".` when the
condition names no registered type. -/
def visit_definitions {σ : Type} (fuel : Nat) (v : Visitor σ) (s : σ)
    (ctx : VisitorContext) (defs : List Definition) :
    TravResult (σ × VisitorContext) :=
  match fuel with
  | 0 => .fuelOut
  | fuel + 1 =>
    match defs with
    | [] => .ok (s, ctx)
    | d :: rest =>
      (match d with
        | .operation operation => visit_operation_definition fuel v s ctx operation
        | .fragment fragment =>
          match fragment.type_condition with
          | .On name =>
            match indexMapGet ctx.registry.types name with
            | some ty =>
              ctx.with_type ty
                (fun ctx' => visit_fragment_definition fuel v s ctx' fragment)
            | none =>
              .ok (s, ctx.report_error [fragment.position]
                ("Unknown type \"" ++ name ++ "\"."))).bind
        (fun a => visit_definitions fuel v a.1 a.2 rest)

/-- `visit_operation_definition`: fire the operation hooks around the
operation body. A shorthand selection set or a query pushes the query root
type (indexing panics when it is unregistered); a mutation or subscription
pushes its configured root type, or reports
`Schema is not configured for <mutations|subscriptions>.` when the registry
has none. -/
def visit_operation_definition {σ : Type} (fuel : Nat) (v : Visitor σ) (s : σ)
    (ctx : VisitorContext) (operation : OperationDefinition) :
    TravResult (σ × VisitorContext) :=
  match fuel with
  | 0 => .fuelOut
  | fuel + 1 =>
    let a1 := runHook v.enter_operation_definition s ctx operation
    (match operation with
      | .selectionSet selection_set =>
        match indexMapGet a1.2.registry.types a1.2.registry.query_type with
        | none => TravResult.panicked
        | some ty =>
          a1.2.with_type ty
            (fun ctx' => visit_selection_set fuel v a1.1 ctx' selection_set)
      | .query query =>
        match indexMapGet a1.2.registry.types a1.2.registry.query_type with
        | none => .panicked
        | some ty =>
          a1.2.with_type ty (fun ctx' =>
            let b1 := visit_variable_definitions v a1.1 ctx' query.variable_definitions
            let b2 := visit_directives v b1.1 b1.2 query.directives
            visit_selection_set fuel v b2.1 b2.2 query.selection_set)
      | .mutation mutation =>
        match a1.2.registry.mutation_type with
        | some mutation_type =>
          match indexMapGet a1.2.registry.types mutation_type with
          | none => .panicked
          | some ty =>
            a1.2.with_type ty (fun ctx' =>
              let b1 := visit_variable_definitions v a1.1 ctx' mutation.variable_definitions
              let b2 := visit_directives v b1.1 b1.2 mutation.directives
              visit_selection_set fuel v b2.1 b2.2 mutation.selection_set)
        | none =>
          .ok (a1.1, a1.2.report_error [mutation.position]
            ("Schema is not configured for mutations."))
      | .subscription subscription =>
        match a1.2.registry.subscription_type with
        | some subscription_type =>
          match indexMapGet a1.2.registry.types subscription_type with
          | none => .panicked
          | some ty =>
            a1.2.with_type ty (fun ctx' =>
              let b1 :=
                visit_variable_definitions v a1.1 ctx' subscription.variable_definitions
              let b2 := visit_directives v b1.1 b1.2 subscription.directives
              visit_selection_set fuel v b2.1 b2.2 subscription.selection_set)
        | none =>
          .ok (a1.1, a1.2.report_error [subscription.position]
            ("Schema is not configured for subscriptions."))).bind
      (fun a2 => .ok (runHook v.exit_operation_definition a2.1 a2.2 operation))

/-- `visit_selection_set`: an empty selection set fires no hooks; otherwise
enter, walk each selection, exit. -/
def visit_selection_set {σ : Type} (fuel : Nat) (v : Visitor σ) (s : σ)
    (ctx : VisitorContext) (selection_set : SelectionSet) :
    TravResult (σ × VisitorContext) :=
  match fuel with
  | 0 => .fuelOut
  | fuel + 1 =>
    match selection_set.items with
    | [] => .ok (s, ctx)
    | _ =>
      let a1 := runHook v.enter_selection_set s ctx selection_set
      (visit_selection_list fuel v a1.1 a1.2 selection_set.items).bind
        (fun a2 => .ok (runHook v.exit_selection_set a2.1 a2.2 selection_set))

/-- The `for selection in &selection_set.items` loop of
`visit_selection_set`. -/
def visit_selection_list {σ : Type} (fuel : Nat) (v : Visitor σ) (s : σ)
    (ctx : VisitorContext) (items : List Selection) :
    TravResult (σ × VisitorContext) :=
  match fuel with
  | 0 => .fuelOut
  | fuel + 1 =>
    match items with
    | [] => .ok (s, ctx)
    | sel :: rest =>
      (visit_selection fuel v s ctx sel).bind
        (fun a => visit_selection_list fuel v a.1 a.2 rest)

/-- `visit_selection`: fire the selection hooks around the dispatch. A field
selection looks the field up on the current type (unwrap of the current
type: panic on an empty stack): a known field pushes the base-named type of
its output TypeRef (unwrap: panic when unresolvable) and visits the field;
an unknown field reports `Cannot query field "<fname>" on type "<tname>".`.
A fragment spread is forwarded. An inline fragment with a known type
condition pushes that type and is visited; an unknown condition reports
`Unknown type "<name>".`; with NO type condition nothing is visited (the
source `if let` has no else branch). -/
def visit_selection {σ : Type} (fuel : Nat) (v : Visitor σ) (s : σ)
    (ctx : VisitorContext) (selection : Selection) :
    TravResult (σ × VisitorContext) :=
  match fuel with
  | 0 => .fuelOut
  | fuel + 1 =>
    let a1 := runHook v.enter_selection s ctx selection
    (match selection with
      | .field field =>
        match a1.2.current_type with
        | none => TravResult.panicked
        | some t =>
          match t.field_by_name field.name with
          | some schema_field =>
            match a1.2.registry.basic_type_by_typename schema_field.ty with
            | none => TravResult.panicked
            | some ty =>
              a1.2.with_type ty (fun ctx' => visit_field fuel v a1.1 ctx' field)
          | none =>
            .ok (a1.1, a1.2.report_error [field.position]
              ("Cannot query field \"" ++ field.name ++ "\" on type \"" ++
                t.name ++ "\"."))
      | .fragmentSpread fragment_spread =>
        visit_fragment_spread fuel v a1.1 a1.2 fragment_spread
      | .inlineFragment inline_fragment =>
        match inline_fragment.type_condition with
        | some (.On name) =>
          match indexMapGet a1.2.registry.types name with
          | some ty =>
            a1.2.with_type ty
              (fun ctx' => visit_inline_fragment fuel v a1.1 ctx' inline_fragment)
          | none =>
            .ok (a1.1, a1.2.report_error [inline_fragment.position]
              ("Unknown type \"" ++ name ++ "\"."))
        | none => .ok (a1.1, a1.2)).bind
      (fun a2 => .ok (runHook v.exit_selection a2.1 a2.2 selection))

/-- `visit_field`: enter the field, visit its arguments, its directives and
its nested selection set, exit the field. -/
def visit_field {σ : Type} (fuel : Nat) (v : Visitor σ) (s : σ)
    (ctx : VisitorContext) (field : Field) : TravResult (σ × VisitorContext) :=
  match fuel with
  | 0 => .fuelOut
  | fuel + 1 =>
    let a1 := runHook v.enter_field s ctx field
    let a2 := visit_arguments v a1.1 a1.2 field.position field.arguments
    let a3 := visit_directives v a2.1 a2.2 field.directives
    (visit_selection_set fuel v a3.1 a3.2 field.selection_set).bind
      (fun a4 => .ok (runHook v.exit_field a4.1 a4.2 field))

/-- `visit_fragment_definition`: enter, visit directives then the selection
set, exit. -/
def visit_fragment_definition {σ : Type} (fuel : Nat) (v : Visitor σ) (s : σ)
    (ctx : VisitorContext) (fragment : FragmentDefinition) :
    TravResult (σ × VisitorContext) :=
  match fuel with
  | 0 => .fuelOut
  | fuel + 1 =>
    let a1 := runHook v.enter_fragment_definition s ctx fragment
    let a2 := visit_directives v a1.1 a1.2 fragment.directives
    (visit_selection_set fuel v a2.1 a2.2 fragment.selection_set).bind
      (fun a3 => .ok (runHook v.exit_fragment_definition a3.1 a3.2 fragment))

/-- `visit_fragment_spread`: enter, visit directives; when the named
fragment exists visit its selection set under the current type; exit.
Unknown spreads are not reported here. -/
def visit_fragment_spread {σ : Type} (fuel : Nat) (v : Visitor σ) (s : σ)
    (ctx : VisitorContext) (fragment_spread : FragmentSpread) :
    TravResult (σ × VisitorContext) :=
  match fuel with
  | 0 => .fuelOut
  | fuel + 1 =>
    let a1 := runHook v.enter_fragment_spread s ctx fragment_spread
    let a2 := visit_directives v a1.1 a1.2 fragment_spread.directives
    (match a2.2.fragment fragment_spread.fragment_name with
      | some fragment => visit_selection_set fuel v a2.1 a2.2 fragment.selection_set
      | none => .ok a2).bind
      (fun a3 => .ok (runHook v.exit_fragment_spread a3.1 a3.2 fragment_spread))

/-- `visit_inline_fragment`: enter, visit directives then the selection set,
exit. -/
def visit_inline_fragment {σ : Type} (fuel : Nat) (v : Visitor σ) (s : σ)
    (ctx : VisitorContext) (inline_fragment : InlineFragment) :
    TravResult (σ × VisitorContext) :=
  match fuel with
  | 0 => .fuelOut
  | fuel + 1 =>
    let a1 := runHook v.enter_inline_fragment s ctx inline_fragment
    let a2 := visit_directives v a1.1 a1.2 inline_fragment.directives
    (visit_selection_set fuel v a2.1 a2.2 inline_fragment.selection_set).bind
      (fun a3 => .ok (runHook v.exit_inline_fragment a3.1 a3.2 inline_fragment))

end

/-! ### The dynamic value model (`src/dynamic/field.rs`) -/

/-- A structured error (`Error::new(message)`); only the message matters to
the claims. -/
structure Error where
  message : String
deriving DecidableEq, Repr

/-- `Error::new`. -/
def Error.new (message : String) : Error :=
  { message := message }

/-- A Rust type identity: the stable `TypeId` used for downcast comparison
together with the `std::any::type_name` text used in error messages. -/
structure RustType where
  id : Nat
  name : String
deriving DecidableEq, Repr

/-- A type-erased `dyn Any` payload, embedded as its type identity (per the
spec's design note: a tagged container keyed by a stable type identifier;
the raw storage cell is opaque to every claim). -/
structure AnyValue where
  ty : RustType
deriving DecidableEq, Repr

/-- The tagged resolver return value `FieldValue`:
`Value | BorrowedAny | OwnedAny | List | WithType { value, ty }`. -/
inductive FieldValue where
  | value : Value → FieldValue
  | borrowedAny : AnyValue → FieldValue
  | ownedAny : AnyValue → FieldValue
  | list : List FieldValue → FieldValue
  | withType : (value : FieldValue) → (ty : String) → FieldValue

/-- `FieldValue::NULL`: `FieldValue::Value(Value::Null)`. -/
def FieldValue.NULL : FieldValue :=
  .value .null

/-- `FieldValue::NONE` / `FieldValue::none()`: `None::<FieldValue>`. -/
def FieldValue.noneValue : Option FieldValue :=
  none

/-- `as_value`: the payload of a `Value` variant, `None` otherwise. -/
def FieldValue.as_value : FieldValue → Option Value
  | .value v => some v
  | _ => none

/-- `try_to_value`: like `as_value` but an error for non-`Value` variants. -/
def FieldValue.try_to_value (fv : FieldValue) : Except Error Value :=
  match fv.as_value with
  | some v => .ok v
  | none => .error (Error.new ("internal: not a Value"))

/-- `as_list`: the payload of a `List` variant, `None` otherwise. -/
def FieldValue.as_list : FieldValue → Option (List FieldValue)
  | .list values => some values
  | _ => none

/-- `try_to_list`: like `as_list` but an error for non-`List` variants. -/
def FieldValue.try_to_list (fv : FieldValue) : Except Error (List FieldValue) :=
  match fv.as_list with
  | some values => .ok values
  | none => .error (Error.new ("internal: not a list"))

/-- `downcast_ref::<T>`: for the two `Any` variants compare the stored type
identity against `T`'s and surface the cell on a match; `None` for every
other variant. -/
def FieldValue.downcast_ref (t : RustType) : FieldValue → Option AnyValue
  | .borrowedAny a => if a.ty.id = t.id then some a else none
  | .ownedAny a => if a.ty.id = t.id then some a else none
  | _ => none

/-- `try_downcast_ref::<T>`: like `downcast_ref` but an error naming `T` on
failure. -/
def FieldValue.try_downcast_ref (t : RustType) (fv : FieldValue) :
    Except Error AnyValue :=
  match fv.downcast_ref t with
  | some a => .ok a
  | none => .error (Error.new ("internal: not type \"" ++ t.name ++ "\""))

/-! ### The dynamic type builders (`src/dynamic/`) -/

namespace Dynamic

/-- Modelled from the spec: the `SchemaError` taxonomy surfaced by schema
finalization (the type itself is not under `src/`, only its use in
`Enum::register`'s signature). -/
inductive SchemaError where
  | unknownType : (name : String) → (referenced_from : String) → SchemaError
  | duplicateType : (name : String) → SchemaError
  | invalidImplementation : (object : String) → (iface : String) → (reason : String) → SchemaError
  | invalidUnionMember : (union : String) → (member : String) → (reason : String) → SchemaError
  | missingRootType : (which : String) → SchemaError
deriving DecidableEq, Repr

/-- The input value builder (`src/dynamic/input_value.rs`). -/
structure InputValue where
  name : String
  description : Option String
  ty : TypeRef
  default_value : Option Value

/-- `InputValue::new(name, ty)`. -/
def InputValue.new (name : String) (ty : TypeRef) : InputValue :=
  { name := name, description := none, ty := ty, default_value := none }

/-- `InputValue::description` (named `set_description` here because the
structure already has a `description` field). -/
def InputValue.set_description (self : InputValue) (description : String) : InputValue :=
  { self with description := some description }

/-- `InputValue::default_value` (named `set_default_value` here because the
structure already has a `default_value` field). -/
def InputValue.set_default_value (self : InputValue) (value : Value) : InputValue :=
  { self with default_value := some value }

/-- The dynamic field builder (`src/dynamic/field.rs`): name, description,
arguments in insertion order, output TypeRef, deprecation. The resolver
callback is a type-erased async closure, opaque to every claim; it is
embedded as a unit placeholder. -/
structure Field where
  name : String
  description : Option String
  arguments : List (String × InputValue)
  ty : TypeRef
  resolver_fn : Unit
  deprecation : Deprecation

/-- `Field::new(name, ty, resolver_fn)`. -/
def Field.new (name : String) (ty : TypeRef) : Field :=
  { name := name
    description := none
    arguments := []
    ty := ty
    resolver_fn := ()
    deprecation := .noDeprecated }

/-- `Field::description` (named `set_description` here because the
structure already has a `description` field). -/
def Field.set_description (self : Field) (description : String) : Field :=
  { self with description := some description }

/-- `Field::argument`: insert the input value under its own name. -/
def Field.argument (self : Field) (input_value : InputValue) : Field :=
  { self with arguments := indexMapInsert self.arguments input_value.name input_value }

/-- An enum item builder (`src/dynamic/enum.rs`). -/
structure EnumItem where
  name : String
  description : Option String
  deprecation : Deprecation
deriving DecidableEq, Repr

/-- `EnumItem::new` / the `From` impl for anything string-like: name only,
no description, not deprecated. -/
def EnumItem.new (name : String) : EnumItem :=
  { name := name, description := none, deprecation := .noDeprecated }

/-- `EnumItem::description` (named `set_description` here because the
structure already has a `description` field). -/
def EnumItem.set_description (self : EnumItem) (description : String) : EnumItem :=
  { self with description := some description }

/-- The enum builder (`src/dynamic/enum.rs`): name, description, value map
in insertion order. -/
structure Enum where
  name : String
  description : Option String
  enum_values : List (String × EnumItem)
deriving DecidableEq, Repr

/-- `Enum::new(name)`. -/
def Enum.new (name : String) : Enum :=
  { name := name, description := none, enum_values := [] }

/-- `Enum::description` (named `set_description` here because the
structure already has a `description` field). -/
def Enum.set_description (self : Enum) (description : String) : Enum :=
  { self with description := some description }

/-- `Enum::item`: insert the item under its own name. -/
def Enum.item (self : Enum) (item : EnumItem) : Enum :=
  { self with enum_values := indexMapInsert self.enum_values item.name item }

/-- `Enum::type_name`. -/
def Enum.type_name (self : Enum) : String :=
  self.name

/-- The `MetaEnumValue` written by `Enum::register` for one item. -/
def metaOfEnumItem (item : EnumItem) : MetaEnumValue :=
  { name := item.name
    description := item.description
    deprecation := item.deprecation
    visible := none
    inaccessible := false
    tags := [] }

/-- `Enum::register`: build a fresh value map from the items in order, then
insert a `MetaType::Enum` into the registry under the enum's name; always
returns `Ok`. -/
def Enum.register (self : Enum) (registry : Registry) : Except SchemaError Registry :=
  let enum_values := self.enum_values.foldl
    (fun acc kv => indexMapInsert acc kv.2.name (metaOfEnumItem kv.2))
    []
  .ok { registry with
    types := indexMapInsert registry.types self.name
      (.enum self.name self.description enum_values none false [] none) }

end Dynamic



end AsyncGraphql

namespace AsyncGraphql

/-! ### Lemmas about the insertion-ordered map operations -/

theorem indexMapGet_insert_self {α : Type} (m : List (String × α)) (k : String) (v : α) :
    indexMapGet (indexMapInsert m k v) k = some v := by
  induction m with
  | nil => simp [indexMapInsert, indexMapGet]
  | cons kv rest ih =>
    obtain ⟨k', v'⟩ := kv
    by_cases h : k' = k
    · simp [indexMapInsert, h, indexMapGet]
    · simp [indexMapInsert, h, indexMapGet, ih]

theorem mem_keys_indexMapInsert {α : Type} (m : List (String × α)) (k x : String) (v : α) :
    x ∈ (indexMapInsert m k v).map Prod.fst ↔ x ∈ m.map Prod.fst ∨ x = k := by
  induction m with
  | nil => simp [indexMapInsert]
  | cons kv rest ih =>
    obtain ⟨k', v'⟩ := kv
    by_cases h : k' = k
    · subst h
      have h1 : indexMapInsert ((k', v') :: rest) k' v = (k', v) :: rest := by
        simp [indexMapInsert]
      rw [h1]
      simp only [List.map_cons, List.mem_cons]
      tauto
    · have h1 : indexMapInsert ((k', v') :: rest) k v = (k', v') :: indexMapInsert rest k v := by
        simp [indexMapInsert, h]
      rw [h1]
      simp only [List.map_cons, List.mem_cons, ih]
      tauto

theorem nodup_keys_indexMapInsert {α : Type} (m : List (String × α)) (k : String) (v : α)
    (h : (m.map Prod.fst).Nodup) : ((indexMapInsert m k v).map Prod.fst).Nodup := by
  induction m with
  | nil => simp [indexMapInsert]
  | cons kv rest ih =>
    obtain ⟨k', v'⟩ := kv
    simp only [List.map_cons, List.nodup_cons] at h
    by_cases hk : k' = k
    · subst hk
      simpa [indexMapInsert, List.nodup_cons] using h
    · simp only [indexMapInsert, if_neg hk, List.map_cons, List.nodup_cons]
      refine ⟨fun hmem => ?_, ih h.2⟩
      rcases (mem_keys_indexMapInsert rest k k' v).mp hmem with hmem' | hmem'
      · exact h.1 hmem'
      · exact hk hmem'

theorem filter_key_eq_nil {α : Type} (m : List (String × α)) (k : String)
    (h : k ∉ m.map Prod.fst) : m.filter (fun kv => kv.1 == k) = [] := by
  induction m with
  | nil => rfl
  | cons kv rest ih =>
    obtain ⟨k', v'⟩ := kv
    simp only [List.map_cons, List.mem_cons] at h
    push_neg at h
    simp only [List.filter_cons]
    rw [if_neg (by simpa using Ne.symm h.1)]
    exact ih h.2

theorem filter_indexMapInsert_self {α : Type} (m : List (String × α)) (k : String) (v : α)
    (h : (m.map Prod.fst).Nodup) :
    (indexMapInsert m k v).filter (fun kv => kv.1 == k) = [(k, v)] := by
  induction m with
  | nil => simp [indexMapInsert]
  | cons kv rest ih =>
    obtain ⟨k', v'⟩ := kv
    simp only [List.map_cons, List.nodup_cons] at h
    by_cases hk : k' = k
    · subst hk
      have h1 : indexMapInsert ((k', v') :: rest) k' v = (k', v) :: rest := by
        simp [indexMapInsert]
      rw [h1]
      simp [List.filter_cons, filter_key_eq_nil rest k' h.1]
    · have h1 : indexMapInsert ((k', v') :: rest) k v = (k', v') :: indexMapInsert rest k v := by
        simp [indexMapInsert, hk]
      rw [h1, List.filter_cons]
      rw [if_neg (by simpa using hk)]
      exact ih h.2

theorem indexMapInsert_append_of_not_mem {α : Type} (m : List (String × α)) (k : String)
    (v : α) (h : k ∉ m.map Prod.fst) : indexMapInsert m k v = m ++ [(k, v)] := by
  induction m with
  | nil => rfl
  | cons kv rest ih =>
    obtain ⟨k', v'⟩ := kv
    simp only [List.map_cons, List.mem_cons] at h
    push_neg at h
    simp only [indexMapInsert, if_neg (Ne.symm h.1), List.cons_append, List.cons.injEq,
      true_and]
    exact ih h.2

theorem foldl_indexMapInsert_eq_append {α β : Type} (key : β → String) (val : β → α) :
    ∀ (l : List β) (acc : List (String × α)),
      (l.map key).Nodup → (∀ b ∈ l, key b ∉ acc.map Prod.fst) →
      l.foldl (fun m b => indexMapInsert m (key b) (val b)) acc =
        acc ++ l.map (fun b => (key b, val b)) := by
  intro l
  induction l with
  | nil => intro acc _ _; simp
  | cons b rest ih =>
    intro acc hnodup hfresh
    simp only [List.map_cons, List.nodup_cons] at hnodup
    simp only [List.foldl_cons]
    rw [indexMapInsert_append_of_not_mem acc (key b) (val b)
      (hfresh b (List.mem_cons_self b rest))]
    rw [ih (acc ++ [(key b, val b)]) hnodup.2 ?_]
    · simp
    · intro b' hb'
      simp only [List.map_append, List.mem_append, List.map_cons, List.map_nil,
        List.mem_singleton]
      push_neg
      refine ⟨hfresh b' (List.mem_cons_of_mem b hb'), fun heq => ?_⟩
      exact hnodup.1 (heq ▸ (List.mem_map_of_mem key hb'))


/-! ### Concrete fixtures used by witnesses and counterexamples -/

/-- A sample field descriptor `a : Int` on the sample query type. -/
def fieldA : MetaField :=
  { name := "a", description := none, args := [], ty := "Int", deprecation := .noDeprecated }

/-- A sample scalar type. -/
def tyInt : MetaType := .scalar "Int"

/-- A sample query root object with the single field `a : Int`. -/
def tyQuery : MetaType := .object "Query" [("a", fieldA)] []

/-- A sample registry: `Query { a : Int }`, no mutation, no subscription. -/
def reg0 : Registry :=
  { types := [("Query", tyQuery), ("Int", tyInt)]
    query_type := "Query"
    mutation_type := none
    subscription_type := none }

/-- The empty document. -/
def doc0 : Document := ⟨[]⟩

/-- A fresh context over the sample registry and the empty document. -/
def ctx0 : VisitorContext := VisitorContext.new reg0 doc0

/-- The sample context with two types pushed (`tyQuery` below `tyInt`). -/
def ctxStacked : VisitorContext :=
  { registry := reg0, errors := [], type_stack := [tyInt, tyQuery], fragments := [] }

/-! ### C10 -/

/-- C10: `parent_type` returns `none` whenever fewer than two types are on
the type stack and otherwise returns the second-from-top entry;
`current_type` unwraps the top of the stack, so it fails (panics in the
source, `none` in the embedding) exactly when the stack is empty. -/
theorem c10_parent_and_current_type (ctx : VisitorContext) :
    (ctx.type_stack.length < 2 → ctx.parent_type = none) ∧
    (∀ t p rest, ctx.type_stack = t :: p :: rest → ctx.parent_type = some p) ∧
    (ctx.current_type = none ↔ ctx.type_stack = []) := by
  refine ⟨fun h => ?_, fun t p rest h => ?_, ?_⟩
  · simp [VisitorContext.parent_type, Nat.not_le.mpr h]
  · simp [VisitorContext.parent_type, h]
  · cases h : ctx.type_stack <;> simp [VisitorContext.current_type, h]

/-- Witness for C10 at a concrete two-entry stack and the empty stack. -/
theorem c10_witness :
    ctxStacked.parent_type = some tyQuery ∧
    ctx0.parent_type = none ∧
    (ctxStacked.current_type = none ↔ ctxStacked.type_stack = []) :=
  ⟨(c10_parent_and_current_type ctxStacked).2.1 tyInt tyQuery [] rfl,
   (c10_parent_and_current_type ctx0).1 (by decide),
   (c10_parent_and_current_type ctxStacked).2.2⟩

/-! ### C6 -/

/-- C6: `as_value` / `try_to_value` surface the payload of a `Value`
variant; every other variant yields `none` and the structured error
`internal: not a Value`. `downcast_ref` / `try_downcast_ref` fail on every
FieldValue that is not a `BorrowedAny` or `OwnedAny` cell holding the
requested type identity, the try-variant with the error
`internal: not type "<type-identity-name>"`. -/
theorem c6_fieldvalue_accessors :
    (∀ v : Value, (FieldValue.value v).as_value = some v ∧
      (FieldValue.value v).try_to_value = Except.ok v) ∧
    (∀ fv : FieldValue, (∀ v, fv ≠ FieldValue.value v) →
      fv.as_value = none ∧
      fv.try_to_value = Except.error (Error.new ("internal: not a Value"))) ∧
    (∀ (fv : FieldValue) (t : RustType),
      (∀ a, fv = FieldValue.borrowedAny a ∨ fv = FieldValue.ownedAny a →
        a.ty.id ≠ t.id) →
      fv.downcast_ref t = none ∧
      fv.try_downcast_ref t =
        Except.error (Error.new ("internal: not type \"" ++ t.name ++ "\""))) := by
  refine ⟨fun v => ⟨rfl, rfl⟩, fun fv h => ?_, fun fv t hid => ?_⟩
  · cases fv with
    | value v => exact absurd rfl (h v)
    | borrowedAny a => exact ⟨rfl, rfl⟩
    | ownedAny a => exact ⟨rfl, rfl⟩
    | list l => exact ⟨rfl, rfl⟩
    | withType val ty => exact ⟨rfl, rfl⟩
  · cases fv with
    | value v => exact ⟨rfl, rfl⟩
    | list l => exact ⟨rfl, rfl⟩
    | withType val ty => exact ⟨rfl, rfl⟩
    | borrowedAny a =>
      have hne := hid a (Or.inl rfl)
      exact ⟨by simp [FieldValue.downcast_ref, hne],
        by simp [FieldValue.try_downcast_ref, FieldValue.downcast_ref, hne]⟩
    | ownedAny a =>
      have hne := hid a (Or.inr rfl)
      exact ⟨by simp [FieldValue.downcast_ref, hne],
        by simp [FieldValue.try_downcast_ref, FieldValue.downcast_ref, hne]⟩

/-- Witness for C6 at a list value and at a mismatched downcast. -/
theorem c6_witness :
    (FieldValue.list []).as_value = none ∧
    (FieldValue.list []).try_to_value =
      Except.error (Error.new ("internal: not a Value")) ∧
    (FieldValue.borrowedAny ⟨⟨1, "Foo"⟩⟩).downcast_ref ⟨2, "Bar"⟩ = none :=
  ⟨(c6_fieldvalue_accessors.2.1 (FieldValue.list [])
      (fun v h => FieldValue.noConfusion h)).1,
   (c6_fieldvalue_accessors.2.1 (FieldValue.list [])
      (fun v h => FieldValue.noConfusion h)).2,
   (c6_fieldvalue_accessors.2.2 (FieldValue.borrowedAny ⟨⟨1, "Foo"⟩⟩) ⟨2, "Bar"⟩
      (fun a h => by
        rcases h with h | h
        · cases h; decide
        · exact FieldValue.noConfusion h)).1⟩


/-! ### C7 -/

/-- C7: `Enum::register` always returns `Ok`, and for every enum builder
(whose value map satisfies the IndexMap invariants: keys are the items own
names and are distinct) it inserts under the enum's name a
`MetaType::Enum` carrying the builder's name and description and, in the
builder's insertion order, one `MetaEnumValue` per item with the item's
name, description and deprecation. -/
theorem c7_enum_register :
    (∀ (e : Dynamic.Enum) (r : Registry), ∃ r', e.register r = Except.ok r') ∧
    (∀ (e : Dynamic.Enum) (r : Registry),
      (∀ kv ∈ e.enum_values, kv.1 = kv.2.name) →
      (e.enum_values.map Prod.fst).Nodup →
      e.register r = Except.ok { r with
        types := indexMapInsert r.types e.name
          (MetaType.enum e.name e.description
            (e.enum_values.map (fun kv => (kv.1, Dynamic.metaOfEnumItem kv.2)))
            none false [] none) } ∧
      ∀ r', e.register r = Except.ok r' →
        indexMapGet r'.types e.name =
          some (MetaType.enum e.name e.description
            (e.enum_values.map (fun kv => (kv.1, Dynamic.metaOfEnumItem kv.2)))
            none false [] none)) := by
  have hlist : ∀ (e : Dynamic.Enum),
      (∀ kv ∈ e.enum_values, kv.1 = kv.2.name) →
      (e.enum_values.map Prod.fst).Nodup →
      e.enum_values.foldl
        (fun acc kv => indexMapInsert acc kv.2.name (Dynamic.metaOfEnumItem kv.2)) [] =
        e.enum_values.map (fun kv => (kv.1, Dynamic.metaOfEnumItem kv.2)) := by
    intro e hkeys hnodup
    have hnames : e.enum_values.map (fun kv => kv.2.name) = e.enum_values.map Prod.fst :=
      List.map_congr_left (fun kv hkv => (hkeys kv hkv).symm)
    rw [foldl_indexMapInsert_eq_append (fun kv : String × Dynamic.EnumItem => kv.2.name)
      (fun kv => Dynamic.metaOfEnumItem kv.2) e.enum_values []
      (by rw [hnames]; exact hnodup) (by intro b _ hmem; simp at hmem)]
    simp only [List.nil_append]
    exact List.map_congr_left (fun kv hkv => by rw [hkeys kv hkv])
  constructor
  · intro e r
    exact ⟨_, rfl⟩
  · intro e r hkeys hnodup
    have hfold := hlist e hkeys hnodup
    constructor
    · simp only [Dynamic.Enum.register, hfold]
    · intro r' hr'
      simp only [Dynamic.Enum.register, hfold] at hr'
      cases hr'
      exact indexMapGet_insert_self _ _ _

/-- Witness for C7 at a two-item enum. -/
theorem c7_witness :
    (Dynamic.Enum.register
        ((Dynamic.Enum.new "MyEnum").item (Dynamic.EnumItem.new "A")
          |>.item (Dynamic.EnumItem.new "B")) reg0) =
      Except.ok { reg0 with
        types := indexMapInsert reg0.types "MyEnum"
          (MetaType.enum "MyEnum" none
            [("A", Dynamic.metaOfEnumItem (Dynamic.EnumItem.new "A")),
             ("B", Dynamic.metaOfEnumItem (Dynamic.EnumItem.new "B"))]
            none false [] none) } := by
  have h := (c7_enum_register.2
    ((Dynamic.Enum.new "MyEnum").item (Dynamic.EnumItem.new "A")
      |>.item (Dynamic.EnumItem.new "B")) reg0
    (by intro kv hkv; fin_cases hkv <;> rfl) (by decide)).1
  exact h

/-! ### C8 -/

/-- C8: in the ordered name-keyed builder maps (enum items, field
arguments), adding an entry whose name equals an existing entry's name
overwrites it: afterwards the map holds exactly one entry under that name,
carrying the later-added descriptor. -/
theorem c8_last_wins :
    (∀ (e : Dynamic.Enum) (i1 i2 : Dynamic.EnumItem),
      (e.enum_values.map Prod.fst).Nodup → i1.name = i2.name →
      indexMapGet ((e.item i1).item i2).enum_values i2.name = some i2 ∧
      ((e.item i1).item i2).enum_values.filter (fun kv => kv.1 == i2.name) =
        [(i2.name, i2)]) ∧
    (∀ (f : Dynamic.Field) (a1 a2 : Dynamic.InputValue),
      (f.arguments.map Prod.fst).Nodup → a1.name = a2.name →
      indexMapGet ((f.argument a1).argument a2).arguments a2.name = some a2 ∧
      ((f.argument a1).argument a2).arguments.filter (fun kv => kv.1 == a2.name) =
        [(a2.name, a2)]) := by
  constructor
  · intro e i1 i2 hnodup _
    refine ⟨indexMapGet_insert_self _ _ _, ?_⟩
    exact filter_indexMapInsert_self _ _ _ (nodup_keys_indexMapInsert _ _ _ hnodup)
  · intro f a1 a2 hnodup _
    refine ⟨indexMapGet_insert_self _ _ _, ?_⟩
    exact filter_indexMapInsert_self _ _ _ (nodup_keys_indexMapInsert _ _ _ hnodup)

/-- A sample duplicate-named later enum item carrying a description. -/
def itemA2 : Dynamic.EnumItem := (Dynamic.EnumItem.new "A").set_description "second"

/-- A sample duplicate-named later argument carrying a description. -/
def argX2 : Dynamic.InputValue :=
  (Dynamic.InputValue.new "x" (TypeRef.named "Int")).set_description "second"

/-- Witness for C8: a duplicate enum item and a duplicate field argument. -/
theorem c8_witness :
    indexMapGet (((Dynamic.Enum.new "E").item (Dynamic.EnumItem.new "A")).item
      itemA2).enum_values "A" = some itemA2 ∧
    indexMapGet (((Dynamic.Field.new "f" (TypeRef.named "Int")).argument
      (Dynamic.InputValue.new "x" (TypeRef.named "Int"))).argument argX2).arguments "x" =
      some argX2 :=
  ⟨(c8_last_wins.1 ((Dynamic.Enum.new "E").item (Dynamic.EnumItem.new "A"))
      (Dynamic.EnumItem.new "A") itemA2 (by decide) rfl).1,
   (c8_last_wins.2 ((Dynamic.Field.new "f" (TypeRef.named "Int")).argument
      (Dynamic.InputValue.new "x" (TypeRef.named "Int")))
      (Dynamic.InputValue.new "x" (TypeRef.named "Int")) argX2 (by decide) rfl).1⟩

/-- A sample source position. -/
def pos13 : Pos := ⟨1, 3⟩

/-- An empty selection set. -/
def emptySel : SelectionSet := SelectionSet.mk (⟨1, 1⟩, ⟨1, 1⟩) []

/-- The field selection `a` (a field of the sample query type). -/
def fdA : Field := Field.mk pos13 none "a" [] [] emptySel

/-- The field selection `b` (not a field of the sample query type). -/
def fdB : Field := Field.mk pos13 none "b" [] [] emptySel

/-- The sample context with the query root pushed. -/
def ctxQ : VisitorContext :=
  { registry := reg0, errors := [], type_stack := [tyQuery], fragments := [] }

/-- An inline fragment WITHOUT a type condition, selecting the field `a`. -/
def frag0 : InlineFragment :=
  InlineFragment.mk pos13 none [] (SelectionSet.mk (⟨1, 5⟩, ⟨1, 9⟩) [Selection.field fdA])

/-- An inline fragment on the registered type `Int`. -/
def fragInt : InlineFragment := InlineFragment.mk pos13 (some (.On "Int")) [] emptySel

/-- An inline fragment on an unregistered type. -/
def fragUnknown : InlineFragment :=
  InlineFragment.mk pos13 (some (.On "Missing")) [] emptySel

/-- A sample operation body with no variables, directives or selections. -/
def op0 : Operation :=
  { position := pos13, name := none, variable_definitions := [], directives := []
    selection_set := emptySel }

/-! ### C1 -/

/-- C1: visiting a field selection whose name is not a field of the current
type reports exactly one rule error
`Cannot query field "<fname>" on type "<tname>".` at the field's position
and does not descend into the field; when the field exists (and its output
TypeRef's base-named type resolves), that base type is pushed via
`with_type` around `visit_field`, which visits the field's arguments, then
its directives, then its nested selection set, and the pushed type is
popped when `with_type` returns. -/
theorem c1_field_selection :
    (∀ (σ : Type) (fuel : Nat) (v : Visitor σ) (s : σ) (ctx : VisitorContext)
      (fd : Field) (t : MetaType) (rest : List MetaType),
      ctx.type_stack = t :: rest →
      t.field_by_name fd.name = none →
      visit_selection (fuel+1) v s ctx (.field fd) =
        (let a1 := runHook v.enter_selection s ctx (.field fd)
         .ok (runHook v.exit_selection a1.1
           (a1.2.report_error [fd.position]
             ("Cannot query field \"" ++ fd.name ++ "\" on type \"" ++ t.name ++ "\"."))
           (.field fd)))) ∧
    (∀ (σ : Type) (fuel : Nat) (v : Visitor σ) (s : σ) (ctx : VisitorContext)
      (fd : Field) (t ty : MetaType) (rest : List MetaType) (schema_field : MetaField),
      ctx.type_stack = t :: rest →
      t.field_by_name fd.name = some schema_field →
      ctx.registry.basic_type_by_typename schema_field.ty = some ty →
      visit_selection (fuel+1) v s ctx (.field fd) =
        (let a1 := runHook v.enter_selection s ctx (.field fd)
         (a1.2.with_type ty (fun ctx' => visit_field fuel v a1.1 ctx' fd)).bind
           (fun a2 => .ok (runHook v.exit_selection a2.1 a2.2 (.field fd))))) ∧
    (∀ (σ : Type) (fuel : Nat) (v : Visitor σ) (s : σ) (ctx : VisitorContext) (fd : Field),
      visit_field (fuel+1) v s ctx fd =
        (let a1 := runHook v.enter_field s ctx fd
         let a2 := visit_arguments v a1.1 a1.2 fd.position fd.arguments
         let a3 := visit_directives v a2.1 a2.2 fd.directives
         (visit_selection_set fuel v a3.1 a3.2 fd.selection_set).bind
           (fun a4 => .ok (runHook v.exit_field a4.1 a4.2 fd)))) := by
  refine ⟨fun σ fuel v s ctx fd t rest hstack hfield => ?_,
          fun σ fuel v s ctx fd t ty rest schema_field hstack hfield hbase => ?_,
          fun σ fuel v s ctx fd => ?_⟩
  · simp only [visit_selection, runHook, VisitorContext.current_type, hstack,
      List.head?_cons, hfield, TravResult.bind]
  · simp only [visit_selection, runHook, VisitorContext.current_type, hstack,
      List.head?_cons, hfield, hbase, TravResult.bind]
  · simp only [visit_field]

/-- Witness for C1: the unknown field `b` and the known field `a` on the
sample query type. -/
theorem c1_witness :
    visit_selection (0+1) VisitorNil () ctxQ (.field fdB) =
      .ok ((), ctxQ.report_error [pos13]
        ("Cannot query field \"b\" on type \"Query\".")) ∧
    visit_selection (2+1) VisitorNil () ctxQ (.field fdA) = .ok ((), ctxQ) := by
  constructor
  · rw [c1_field_selection.1 Unit 0 VisitorNil () ctxQ fdB tyQuery [] rfl rfl]
    rfl
  · rw [c1_field_selection.2.1 Unit 2 VisitorNil () ctxQ fdA tyQuery tyInt [] fieldA
      rfl rfl rfl]
    rfl

/-! ### C2 -/

/-- C2 (amended): an inline fragment with a type condition naming a
registered type is visited with that type pushed around it; an unknown
type condition reports `Unknown type "<name>".` at the fragment's
position; an inline fragment with NO type condition is skipped entirely —
only the surrounding selection enter/exit hooks fire and neither the
inline-fragment hooks nor its selection set are visited (the source's
`if let` has no else branch). -/
theorem c2_inline_fragment :
    (∀ (σ : Type) (fuel : Nat) (v : Visitor σ) (s : σ) (ctx : VisitorContext)
      (infr : InlineFragment) (name : String) (ty : MetaType),
      infr.type_condition = some (.On name) →
      indexMapGet ctx.registry.types name = some ty →
      visit_selection (fuel+1) v s ctx (.inlineFragment infr) =
        (let a1 := runHook v.enter_selection s ctx (.inlineFragment infr)
         (a1.2.with_type ty (fun ctx' => visit_inline_fragment fuel v a1.1 ctx' infr)).bind
           (fun a2 => .ok (runHook v.exit_selection a2.1 a2.2 (.inlineFragment infr))))) ∧
    (∀ (σ : Type) (fuel : Nat) (v : Visitor σ) (s : σ) (ctx : VisitorContext)
      (infr : InlineFragment) (name : String),
      infr.type_condition = some (.On name) →
      indexMapGet ctx.registry.types name = none →
      visit_selection (fuel+1) v s ctx (.inlineFragment infr) =
        (let a1 := runHook v.enter_selection s ctx (.inlineFragment infr)
         .ok (runHook v.exit_selection a1.1
           (a1.2.report_error [infr.position] ("Unknown type \"" ++ name ++ "\"."))
           (.inlineFragment infr)))) ∧
    (∀ (σ : Type) (fuel : Nat) (v : Visitor σ) (s : σ) (ctx : VisitorContext)
      (infr : InlineFragment),
      infr.type_condition = none →
      visit_selection (fuel+1) v s ctx (.inlineFragment infr) =
        (let a1 := runHook v.enter_selection s ctx (.inlineFragment infr)
         .ok (runHook v.exit_selection a1.1 a1.2 (.inlineFragment infr)))) := by
  refine ⟨fun σ fuel v s ctx infr name ty hcond hty => ?_,
          fun σ fuel v s ctx infr name hcond hty => ?_,
          fun σ fuel v s ctx infr hcond => ?_⟩
  · simp only [visit_selection, runHook, hcond, hty, TravResult.bind]
  · simp only [visit_selection, runHook, hcond, hty, TravResult.bind]
  · simp only [visit_selection, runHook, hcond, TravResult.bind]

/-- A probe visitor that reports an error when `enter_inline_fragment`
fires. -/
def inlineProbe : Visitor Unit :=
  { enter_inline_fragment := fun s _ _ =>
      (s, [{ locations := [], message := "enter_inline_fragment" }]) }

/-- Counterexample for C2 as stated: visiting the type-condition-less
inline fragment `frag0` leaves the error vector empty — the probe hook
never fires and the nested selection set is not visited — although
directly invoking `visit_inline_fragment` (what visitation would do) does
fire the probe. So the inline fragment is NOT visited under the inherited
type. -/
theorem c2_counterexample :
    visit_selection 9 inlineProbe () ctxQ (.inlineFragment frag0) = .ok ((), ctxQ) ∧
    visit_inline_fragment 9 inlineProbe () ctxQ frag0 =
      .ok ((), { ctxQ with
        errors := [{ locations := [], message := "enter_inline_fragment" }] }) := by
  constructor
  · rfl
  · rfl

/-- Witness for C2 at the three concrete inline fragments. -/
theorem c2_witness :
    visit_selection (2+1) VisitorNil () ctxQ (.inlineFragment fragInt) = .ok ((), ctxQ) ∧
    visit_selection (0+1) VisitorNil () ctxQ (.inlineFragment fragUnknown) =
      .ok ((), ctxQ.report_error [pos13] ("Unknown type \"Missing\".")) ∧
    visit_selection (0+1) VisitorNil () ctxQ (.inlineFragment frag0) = .ok ((), ctxQ) := by
  refine ⟨?_, ?_, ?_⟩
  · rw [c2_inline_fragment.1 Unit 2 VisitorNil () ctxQ fragInt "Int" tyInt rfl rfl]
    rfl
  · rw [c2_inline_fragment.2.1 Unit 0 VisitorNil () ctxQ fragUnknown "Missing" rfl rfl]
    rfl
  · rw [c2_inline_fragment.2.2 Unit 0 VisitorNil () ctxQ frag0 rfl]
    rfl

/-! ### C4 -/

/-- C4: a mutation (resp. subscription) operation validated against a
registry without the corresponding root type reports exactly one rule
error `Schema is not configured for mutations.` (resp. `... for
subscriptions.`) at the operation's position, and visits neither the
operation's variable definitions nor its directives nor its selection set
(only the operation-definition enter/exit hooks fire around the error). -/
theorem c4_unconfigured_roots :
    (∀ (σ : Type) (fuel : Nat) (v : Visitor σ) (s : σ) (ctx : VisitorContext)
      (m : Operation), ctx.registry.mutation_type = none →
      visit_operation_definition (fuel+1) v s ctx (.mutation m) =
        (let a1 := runHook v.enter_operation_definition s ctx (.mutation m)
         .ok (runHook v.exit_operation_definition a1.1
           (a1.2.report_error [m.position] ("Schema is not configured for mutations."))
           (.mutation m)))) ∧
    (∀ (σ : Type) (fuel : Nat) (v : Visitor σ) (s : σ) (ctx : VisitorContext)
      (sub : Operation), ctx.registry.subscription_type = none →
      visit_operation_definition (fuel+1) v s ctx (.subscription sub) =
        (let a1 := runHook v.enter_operation_definition s ctx (.subscription sub)
         .ok (runHook v.exit_operation_definition a1.1
           (a1.2.report_error [sub.position]
             ("Schema is not configured for subscriptions."))
           (.subscription sub)))) := by
  refine ⟨fun σ fuel v s ctx m hm => ?_, fun σ fuel v s ctx sub hs => ?_⟩
  · simp only [visit_operation_definition, runHook, hm, TravResult.bind]
  · simp only [visit_operation_definition, runHook, hs, TravResult.bind]

/-- Witness for C4 over the sample registry, which configures neither
mutations nor subscriptions. -/
theorem c4_witness :
    visit_operation_definition (0+1) VisitorNil () ctx0 (.mutation op0) =
      .ok ((), ctx0.report_error [pos13] ("Schema is not configured for mutations.")) ∧
    visit_operation_definition (0+1) VisitorNil () ctx0 (.subscription op0) =
      .ok ((), ctx0.report_error [pos13]
        ("Schema is not configured for subscriptions.")) := by
  constructor
  · rw [c4_unconfigured_roots.1 Unit 0 VisitorNil () ctx0 op0 rfl]
    rfl
  · rw [c4_unconfigured_roots.2 Unit 0 VisitorNil () ctx0 op0 rfl]
    rfl


/-! ### C3 -/

/-- A visitor whose `enter_document` hook reports one error carrying its
tag, making invocation order observable in the error vector. -/
def reporterVisitor (tag : String) : Visitor Unit :=
  { enter_document := fun s _ _ => (s, [{ locations := [], message := tag }]) }

/-- Counterexample for C3 as stated: in the chain
`VisitorNil.with(r1).with(r2)` the composed `enter_document` hook appends
`r2`'s error BEFORE `r1`'s — the rules fire in reverse chain-insertion
order, not in insertion order `r1, r2`. -/
theorem c3_counterexample :
    ((runHook ((VisitorNil.with_ (reporterVisitor "r1")).with_
        (reporterVisitor "r2")).enter_document ((), ((), ())) ctx0 doc0).2.errors.map
      RuleError.message = ["r2", "r1"]) ∧
    (["r2", "r1"] ≠ (["r1", "r2"] : List String)) := by
  exact ⟨rfl, by decide⟩

/-- Run the two hooks of a two-visitor chain in sequence: the first hook on
the context, the second on the context extended with the first's errors. -/
def seqHook {α β γ N : Type} (hb : β → VisitorContext → N → β × List RuleError)
    (ha : α → VisitorContext → N → α × List RuleError) (mk : β → α → γ)
    (sb : β) (sa : α) (ctx : VisitorContext) (n : N) : γ × VisitorContext :=
  let h := runHook hb sb ctx n
  let t := runHook ha sa h.2 n
  (mk h.1 t.1, t.2)

/-- `seqHook` for the argument hooks. -/
def seqHookArg {α β γ : Type}
    (hb : β → VisitorContext → Pos → String → Value → β × List RuleError)
    (ha : α → VisitorContext → Pos → String → Value → α × List RuleError)
    (mk : β → α → γ) (sb : β) (sa : α) (ctx : VisitorContext)
    (pos : Pos) (name : String) (val : Value) : γ × VisitorContext :=
  let h := runHookArg hb sb ctx pos name val
  let t := runHookArg ha sa h.2 pos name val
  (mk h.1 t.1, t.2)

/-- C3 (amended): `with` prepends the new visitor as the HEAD of the
`VisitorCons` chain, and every hook of the composed chain invokes the
head's hook first and the tail's hook second (the tail seeing the context
already carrying the head's errors). Hence for a chain built by successive
`with` calls the rules fire deterministically in REVERSE chain-insertion
order: in `VisitorNil.with(r1).with(r2)` every hook runs `r2` before
`r1`. -/
theorem c3_chain_order {α β : Type} (va : Visitor α) (vb : Visitor β)
    (sa : α) (sb : β) (ctx : VisitorContext) :
    (∀ n : Document,
      runHook ((VisitorNil.with_ va).with_ vb).enter_document (sb, (sa, ())) ctx n =
        seqHook vb.enter_document va.enter_document (fun b a => (b, (a, ()))) sb sa ctx n) ∧
    (∀ n : Document,
      runHook ((VisitorNil.with_ va).with_ vb).exit_document (sb, (sa, ())) ctx n =
        seqHook vb.exit_document va.exit_document (fun b a => (b, (a, ()))) sb sa ctx n) ∧
    (∀ n : OperationDefinition,
      runHook ((VisitorNil.with_ va).with_ vb).enter_operation_definition (sb, (sa, ())) ctx n =
        seqHook vb.enter_operation_definition va.enter_operation_definition (fun b a => (b, (a, ()))) sb sa ctx n) ∧
    (∀ n : OperationDefinition,
      runHook ((VisitorNil.with_ va).with_ vb).exit_operation_definition (sb, (sa, ())) ctx n =
        seqHook vb.exit_operation_definition va.exit_operation_definition (fun b a => (b, (a, ()))) sb sa ctx n) ∧
    (∀ n : FragmentDefinition,
      runHook ((VisitorNil.with_ va).with_ vb).enter_fragment_definition (sb, (sa, ())) ctx n =
        seqHook vb.enter_fragment_definition va.enter_fragment_definition (fun b a => (b, (a, ()))) sb sa ctx n) ∧
    (∀ n : FragmentDefinition,
      runHook ((VisitorNil.with_ va).with_ vb).exit_fragment_definition (sb, (sa, ())) ctx n =
        seqHook vb.exit_fragment_definition va.exit_fragment_definition (fun b a => (b, (a, ()))) sb sa ctx n) ∧
    (∀ n : VariableDefinition,
      runHook ((VisitorNil.with_ va).with_ vb).enter_variable_definition (sb, (sa, ())) ctx n =
        seqHook vb.enter_variable_definition va.enter_variable_definition (fun b a => (b, (a, ()))) sb sa ctx n) ∧
    (∀ n : VariableDefinition,
      runHook ((VisitorNil.with_ va).with_ vb).exit_variable_definition (sb, (sa, ())) ctx n =
        seqHook vb.exit_variable_definition va.exit_variable_definition (fun b a => (b, (a, ()))) sb sa ctx n) ∧
    (∀ n : Directive,
      runHook ((VisitorNil.with_ va).with_ vb).enter_directive (sb, (sa, ())) ctx n =
        seqHook vb.enter_directive va.enter_directive (fun b a => (b, (a, ()))) sb sa ctx n) ∧
    (∀ n : Directive,
      runHook ((VisitorNil.with_ va).with_ vb).exit_directive (sb, (sa, ())) ctx n =
        seqHook vb.exit_directive va.exit_directive (fun b a => (b, (a, ()))) sb sa ctx n) ∧
    (∀ (pos : Pos) (nm : String) (val : Value),
      runHookArg ((VisitorNil.with_ va).with_ vb).enter_argument (sb, (sa, ())) ctx pos nm val =
        seqHookArg vb.enter_argument va.enter_argument (fun b a => (b, (a, ()))) sb sa ctx pos nm val) ∧
    (∀ (pos : Pos) (nm : String) (val : Value),
      runHookArg ((VisitorNil.with_ va).with_ vb).exit_argument (sb, (sa, ())) ctx pos nm val =
        seqHookArg vb.exit_argument va.exit_argument (fun b a => (b, (a, ()))) sb sa ctx pos nm val) ∧
    (∀ n : SelectionSet,
      runHook ((VisitorNil.with_ va).with_ vb).enter_selection_set (sb, (sa, ())) ctx n =
        seqHook vb.enter_selection_set va.enter_selection_set (fun b a => (b, (a, ()))) sb sa ctx n) ∧
    (∀ n : SelectionSet,
      runHook ((VisitorNil.with_ va).with_ vb).exit_selection_set (sb, (sa, ())) ctx n =
        seqHook vb.exit_selection_set va.exit_selection_set (fun b a => (b, (a, ()))) sb sa ctx n) ∧
    (∀ n : Selection,
      runHook ((VisitorNil.with_ va).with_ vb).enter_selection (sb, (sa, ())) ctx n =
        seqHook vb.enter_selection va.enter_selection (fun b a => (b, (a, ()))) sb sa ctx n) ∧
    (∀ n : Selection,
      runHook ((VisitorNil.with_ va).with_ vb).exit_selection (sb, (sa, ())) ctx n =
        seqHook vb.exit_selection va.exit_selection (fun b a => (b, (a, ()))) sb sa ctx n) ∧
    (∀ n : Field,
      runHook ((VisitorNil.with_ va).with_ vb).enter_field (sb, (sa, ())) ctx n =
        seqHook vb.enter_field va.enter_field (fun b a => (b, (a, ()))) sb sa ctx n) ∧
    (∀ n : Field,
      runHook ((VisitorNil.with_ va).with_ vb).exit_field (sb, (sa, ())) ctx n =
        seqHook vb.exit_field va.exit_field (fun b a => (b, (a, ()))) sb sa ctx n) ∧
    (∀ n : FragmentSpread,
      runHook ((VisitorNil.with_ va).with_ vb).enter_fragment_spread (sb, (sa, ())) ctx n =
        seqHook vb.enter_fragment_spread va.enter_fragment_spread (fun b a => (b, (a, ()))) sb sa ctx n) ∧
    (∀ n : FragmentSpread,
      runHook ((VisitorNil.with_ va).with_ vb).exit_fragment_spread (sb, (sa, ())) ctx n =
        seqHook vb.exit_fragment_spread va.exit_fragment_spread (fun b a => (b, (a, ()))) sb sa ctx n) ∧
    (∀ n : InlineFragment,
      runHook ((VisitorNil.with_ va).with_ vb).enter_inline_fragment (sb, (sa, ())) ctx n =
        seqHook vb.enter_inline_fragment va.enter_inline_fragment (fun b a => (b, (a, ()))) sb sa ctx n) ∧
    (∀ n : InlineFragment,
      runHook ((VisitorNil.with_ va).with_ vb).exit_inline_fragment (sb, (sa, ())) ctx n =
        seqHook vb.exit_inline_fragment va.exit_inline_fragment (fun b a => (b, (a, ()))) sb sa ctx n) := by
  refine ⟨?_, ?_, ?_, ?_, ?_, ?_, ?_, ?_, ?_, ?_, ?_, ?_, ?_, ?_, ?_, ?_, ?_, ?_, ?_, ?_, ?_, ?_⟩
  all_goals intros
  all_goals simp [Visitor.with_, visitorCons, VisitorNil, consHook, consHookArg,
    runHook, runHookArg, seqHook, seqHookArg]


/-! ### Preservation infrastructure for C9 and C5

The traversal only ever appends errors: the registry, the fragment map and
— across one full call — the type stack are restored on every normal
return. `sameShape` captures the three preserved fields. -/

def sameShape (ctx ctx' : VisitorContext) : Prop :=
  ctx'.registry = ctx.registry ∧ ctx'.type_stack = ctx.type_stack ∧
    ctx'.fragments = ctx.fragments

theorem sameShape_refl (ctx : VisitorContext) : sameShape ctx ctx :=
  ⟨rfl, rfl, rfl⟩

theorem sameShape_trans {c1 c2 c3 : VisitorContext}
    (h12 : sameShape c1 c2) (h23 : sameShape c2 c3) : sameShape c1 c3 :=
  ⟨h23.1.trans h12.1, h23.2.1.trans h12.2.1, h23.2.2.trans h12.2.2⟩

theorem sameShape_runHook {σ N : Type}
    (hook : σ → VisitorContext → N → σ × List RuleError) (s : σ)
    (ctx : VisitorContext) (n : N) : sameShape ctx (runHook hook s ctx n).2 :=
  ⟨rfl, rfl, rfl⟩

theorem sameShape_report_error (ctx : VisitorContext) (locs : List Pos) (msg : String) :
    sameShape ctx (ctx.report_error locs msg) :=
  ⟨rfl, rfl, rfl⟩

theorem sameShape_visit_arguments {σ : Type} (v : Visitor σ) (s : σ)
    (ctx : VisitorContext) (pos : Pos) (args : List (String × Value)) :
    sameShape ctx (visit_arguments v s ctx pos args).2 := by
  induction args generalizing s ctx with
  | nil => exact sameShape_refl ctx
  | cons a rest ih =>
    have hstep : visit_arguments v s ctx pos (a :: rest) =
        visit_arguments v
          (runHookArg v.exit_argument (runHookArg v.enter_argument s ctx pos a.1 a.2).1
            (runHookArg v.enter_argument s ctx pos a.1 a.2).2 pos a.1 a.2).1
          (runHookArg v.exit_argument (runHookArg v.enter_argument s ctx pos a.1 a.2).1
            (runHookArg v.enter_argument s ctx pos a.1 a.2).2 pos a.1 a.2).2
          pos rest := by
      simp [visit_arguments, List.foldl_cons]
    rw [hstep]
    exact sameShape_trans (⟨rfl, rfl, rfl⟩ : sameShape ctx _) (ih _ _)

theorem sameShape_visit_variable_definitions {σ : Type} (v : Visitor σ) (s : σ)
    (ctx : VisitorContext) (ds : List VariableDefinition) :
    sameShape ctx (visit_variable_definitions v s ctx ds).2 := by
  induction ds generalizing s ctx with
  | nil => exact sameShape_refl ctx
  | cons d rest ih =>
    have hstep : visit_variable_definitions v s ctx (d :: rest) =
        visit_variable_definitions v
          (runHook v.exit_variable_definition (runHook v.enter_variable_definition s ctx d).1
            (runHook v.enter_variable_definition s ctx d).2 d).1
          (runHook v.exit_variable_definition (runHook v.enter_variable_definition s ctx d).1
            (runHook v.enter_variable_definition s ctx d).2 d).2
          rest := by
      simp [visit_variable_definitions, List.foldl_cons]
    rw [hstep]
    exact sameShape_trans (⟨rfl, rfl, rfl⟩ : sameShape ctx _) (ih _ _)

theorem sameShape_visit_directives {σ : Type} (v : Visitor σ) (s : σ)
    (ctx : VisitorContext) (ds : List Directive) :
    sameShape ctx (visit_directives v s ctx ds).2 := by
  induction ds generalizing s ctx with
  | nil => exact sameShape_refl ctx
  | cons d rest ih =>
    have hstep : visit_directives v s ctx (d :: rest) =
        visit_directives v
          (runHook v.exit_directive
            (visit_arguments v (runHook v.enter_directive s ctx d).1
              (runHook v.enter_directive s ctx d).2 d.position d.arguments).1
            (visit_arguments v (runHook v.enter_directive s ctx d).1
              (runHook v.enter_directive s ctx d).2 d.position d.arguments).2 d).1
          (runHook v.exit_directive
            (visit_arguments v (runHook v.enter_directive s ctx d).1
              (runHook v.enter_directive s ctx d).2 d.position d.arguments).1
            (visit_arguments v (runHook v.enter_directive s ctx d).1
              (runHook v.enter_directive s ctx d).2 d.position d.arguments).2 d).2
          rest := by
      simp [visit_directives, List.foldl_cons]
    rw [hstep]
    refine sameShape_trans ?_ (ih _ _)
    exact sameShape_trans
      (sameShape_trans (sameShape_runHook v.enter_directive s ctx d)
        (sameShape_visit_arguments v _ _ d.position d.arguments))
      (sameShape_runHook v.exit_directive _ _ d)

theorem visit_variable_definitions_registry {σ : Type} (v : Visitor σ) (s : σ)
    (ctx : VisitorContext) (ds : List VariableDefinition) :
    (visit_variable_definitions v s ctx ds).2.registry = ctx.registry :=
  (sameShape_visit_variable_definitions v s ctx ds).1

theorem visit_variable_definitions_type_stack {σ : Type} (v : Visitor σ) (s : σ)
    (ctx : VisitorContext) (ds : List VariableDefinition) :
    (visit_variable_definitions v s ctx ds).2.type_stack = ctx.type_stack :=
  (sameShape_visit_variable_definitions v s ctx ds).2.1

theorem visit_directives_registry {σ : Type} (v : Visitor σ) (s : σ)
    (ctx : VisitorContext) (ds : List Directive) :
    (visit_directives v s ctx ds).2.registry = ctx.registry :=
  (sameShape_visit_directives v s ctx ds).1

theorem visit_directives_type_stack {σ : Type} (v : Visitor σ) (s : σ)
    (ctx : VisitorContext) (ds : List Directive) :
    (visit_directives v s ctx ds).2.type_stack = ctx.type_stack :=
  (sameShape_visit_directives v s ctx ds).2.1

theorem visit_arguments_registry {σ : Type} (v : Visitor σ) (s : σ)
    (ctx : VisitorContext) (pos : Pos) (args : List (String × Value)) :
    (visit_arguments v s ctx pos args).2.registry = ctx.registry :=
  (sameShape_visit_arguments v s ctx pos args).1

theorem visit_arguments_type_stack {σ : Type} (v : Visitor σ) (s : σ)
    (ctx : VisitorContext) (pos : Pos) (args : List (String × Value)) :
    (visit_arguments v s ctx pos args).2.type_stack = ctx.type_stack :=
  (sameShape_visit_arguments v s ctx pos args).2.1

theorem visit_directives_fragments {σ : Type} (v : Visitor σ) (s : σ)
    (ctx : VisitorContext) (ds : List Directive) :
    (visit_directives v s ctx ds).2.fragments = ctx.fragments :=
  (sameShape_visit_directives v s ctx ds).2.2

theorem with_type_sameShape {α : Type} (ctx : VisitorContext) (ty : MetaType)
    (f : VisitorContext → TravResult (α × VisitorContext)) (a : α) (ctx' : VisitorContext)
    (hok : ctx.with_type ty f = .ok (a, ctx'))
    (hf : ∀ b ctxb, f { ctx with type_stack := ty :: ctx.type_stack } = .ok (b, ctxb) →
      sameShape { ctx with type_stack := ty :: ctx.type_stack } ctxb) :
    sameShape ctx ctx' := by
  unfold VisitorContext.with_type at hok
  cases hfk : f { ctx with type_stack := ty :: ctx.type_stack } with
  | ok pair =>
    obtain ⟨b, ctxb⟩ := pair
    rw [hfk] at hok
    obtain ⟨h1, h2, h3⟩ := hf b ctxb hfk
    simp only [TravResult.ok.injEq, Prod.mk.injEq] at hok
    obtain ⟨-, hctx'⟩ := hok
    subst hctx'
    exact ⟨h1, by simp [h2], h3⟩
  | panicked => rw [hfk] at hok; cases hok
  | fuelOut => rw [hfk] at hok; cases hok



theorem runHook_registry {σ N : Type} (hook : σ → VisitorContext → N → σ × List RuleError)
    (s : σ) (ctx : VisitorContext) (n : N) :
    (runHook hook s ctx n).2.registry = ctx.registry := rfl

theorem runHook_type_stack {σ N : Type} (hook : σ → VisitorContext → N → σ × List RuleError)
    (s : σ) (ctx : VisitorContext) (n : N) :
    (runHook hook s ctx n).2.type_stack = ctx.type_stack := rfl

theorem runHook_fragments {σ N : Type} (hook : σ → VisitorContext → N → σ × List RuleError)
    (s : σ) (ctx : VisitorContext) (n : N) :
    (runHook hook s ctx n).2.fragments = ctx.fragments := rfl

theorem runHook_current_type {σ N : Type}
    (hook : σ → VisitorContext → N → σ × List RuleError)
    (s : σ) (ctx : VisitorContext) (n : N) :
    (runHook hook s ctx n).2.current_type = ctx.current_type := rfl


theorem bind_eq_ok {α β : Type} {r : TravResult α} {f : α → TravResult β} {b : β}
    (h : r.bind f = .ok b) : ∃ a, r = .ok a ∧ f a = .ok b := by
  cases r with
  | ok a => exact ⟨a, rfl, h⟩
  | panicked => simp [TravResult.bind] at h
  | fuelOut => simp [TravResult.bind] at h

set_option linter.unusedVariables false

theorem trav_sameShape : ∀ fuel : Nat,
    (∀ (σ : Type) (v : Visitor σ) (s : σ) (ctx : VisitorContext) (doc : Document)
      (s' : σ) (ctx' : VisitorContext),
      visit fuel v s ctx doc = .ok (s', ctx') → sameShape ctx ctx') ∧
    (∀ (σ : Type) (v : Visitor σ) (s : σ) (ctx : VisitorContext) (defs : List Definition)
      (s' : σ) (ctx' : VisitorContext),
      visit_definitions fuel v s ctx defs = .ok (s', ctx') → sameShape ctx ctx') ∧
    (∀ (σ : Type) (v : Visitor σ) (s : σ) (ctx : VisitorContext) (op : OperationDefinition)
      (s' : σ) (ctx' : VisitorContext),
      visit_operation_definition fuel v s ctx op = .ok (s', ctx') → sameShape ctx ctx') ∧
    (∀ (σ : Type) (v : Visitor σ) (s : σ) (ctx : VisitorContext) (ss : SelectionSet)
      (s' : σ) (ctx' : VisitorContext),
      visit_selection_set fuel v s ctx ss = .ok (s', ctx') → sameShape ctx ctx') ∧
    (∀ (σ : Type) (v : Visitor σ) (s : σ) (ctx : VisitorContext) (items : List Selection)
      (s' : σ) (ctx' : VisitorContext),
      visit_selection_list fuel v s ctx items = .ok (s', ctx') → sameShape ctx ctx') ∧
    (∀ (σ : Type) (v : Visitor σ) (s : σ) (ctx : VisitorContext) (sel : Selection)
      (s' : σ) (ctx' : VisitorContext),
      visit_selection fuel v s ctx sel = .ok (s', ctx') → sameShape ctx ctx') ∧
    (∀ (σ : Type) (v : Visitor σ) (s : σ) (ctx : VisitorContext) (fd : Field)
      (s' : σ) (ctx' : VisitorContext),
      visit_field fuel v s ctx fd = .ok (s', ctx') → sameShape ctx ctx') ∧
    (∀ (σ : Type) (v : Visitor σ) (s : σ) (ctx : VisitorContext) (fragd : FragmentDefinition)
      (s' : σ) (ctx' : VisitorContext),
      visit_fragment_definition fuel v s ctx fragd = .ok (s', ctx') → sameShape ctx ctx') ∧
    (∀ (σ : Type) (v : Visitor σ) (s : σ) (ctx : VisitorContext) (fs : FragmentSpread)
      (s' : σ) (ctx' : VisitorContext),
      visit_fragment_spread fuel v s ctx fs = .ok (s', ctx') → sameShape ctx ctx') ∧
    (∀ (σ : Type) (v : Visitor σ) (s : σ) (ctx : VisitorContext) (infr : InlineFragment)
      (s' : σ) (ctx' : VisitorContext),
      visit_inline_fragment fuel v s ctx infr = .ok (s', ctx') → sameShape ctx ctx') := by
  intro fuel
  induction fuel with
  | zero =>
    refine ⟨?_, ?_, ?_, ?_, ?_, ?_, ?_, ?_, ?_, ?_⟩
    · intro σ v s ctx doc s' ctx' h; simp [visit] at h
    · intro σ v s ctx defs s' ctx' h; simp [visit_definitions] at h
    · intro σ v s ctx op s' ctx' h; simp [visit_operation_definition] at h
    · intro σ v s ctx ss s' ctx' h; simp [visit_selection_set] at h
    · intro σ v s ctx items s' ctx' h; simp [visit_selection_list] at h
    · intro σ v s ctx sel s' ctx' h; simp [visit_selection] at h
    · intro σ v s ctx fd s' ctx' h; simp [visit_field] at h
    · intro σ v s ctx fragd s' ctx' h; simp [visit_fragment_definition] at h
    · intro σ v s ctx fs s' ctx' h; simp [visit_fragment_spread] at h
    · intro σ v s ctx infr s' ctx' h; simp [visit_inline_fragment] at h
  | succ fuel ih =>
    obtain ⟨ihv, ihd, ihop, ihss, ihsl, ihsel, ihf, ihfd, ihfs, ihif⟩ := ih
    refine ⟨?_, ?_, ?_, ?_, ?_, ?_, ?_, ?_, ?_, ?_⟩
    -- visit
    · intro σ v s ctx doc s' ctx' h
      simp only [visit] at h
      cases hd : visit_definitions fuel v (runHook v.enter_document s ctx doc).1
          (runHook v.enter_document s ctx doc).2 doc.definitions with
      | ok a2 =>
        obtain ⟨s2, c2⟩ := a2
        rw [hd] at h
        simp only [TravResult.bind, TravResult.ok.injEq] at h
        have hctx' : ctx' = (runHook v.exit_document s2 c2 doc).2 := by rw [h]
        subst hctx'
        exact sameShape_trans (sameShape_runHook v.enter_document s ctx doc)
          (sameShape_trans (ihd σ v _ _ doc.definitions s2 c2 hd)
            (sameShape_runHook v.exit_document s2 c2 doc))
      | panicked => rw [hd] at h; simp [TravResult.bind] at h
      | fuelOut => rw [hd] at h; simp [TravResult.bind] at h
    -- visit_definitions
    · intro σ v s ctx defs s' ctx' h
      cases defs with
      | nil =>
        simp only [visit_definitions, TravResult.ok.injEq, Prod.mk.injEq] at h
        rw [← h.2]
        exact sameShape_refl ctx
      | cons d rest =>
        cases d with
        | operation operation =>
          simp only [visit_definitions] at h
          cases hop : visit_operation_definition fuel v s ctx operation with
          | ok a =>
            obtain ⟨s1, c1⟩ := a
            rw [hop] at h
            simp only [TravResult.bind] at h
            exact sameShape_trans (ihop σ v s ctx operation s1 c1 hop)
              (ihd σ v s1 c1 rest s' ctx' h)
          | panicked => rw [hop] at h; simp [TravResult.bind] at h
          | fuelOut => rw [hop] at h; simp [TravResult.bind] at h
        | fragment fragment =>
          cases htc : fragment.type_condition with
          | On name =>
            simp only [visit_definitions, htc] at h
            cases hty : indexMapGet ctx.registry.types name with
            | some ty =>
              simp only [hty] at h
              cases hw : ctx.with_type ty
                  (fun ctx' => visit_fragment_definition fuel v s ctx' fragment) with
              | ok a =>
                obtain ⟨s1, c1⟩ := a
                rw [hw] at h
                simp only [TravResult.bind] at h
                have hshape : sameShape ctx c1 :=
                  with_type_sameShape ctx ty _ s1 c1 hw
                    (fun b ctxb hb => ihfd σ v s _ fragment b ctxb hb)
                exact sameShape_trans hshape (ihd σ v s1 c1 rest s' ctx' h)
              | panicked => rw [hw] at h; simp [TravResult.bind] at h
              | fuelOut => rw [hw] at h; simp [TravResult.bind] at h
            | none =>
              simp only [hty, TravResult.bind] at h
              exact sameShape_trans
                (sameShape_report_error ctx [fragment.position] _)
                (ihd σ v s _ rest s' ctx' h)
    -- visit_operation_definition
    · intro σ v s ctx op s' ctx' h
      simp only [visit_operation_definition, runHook_registry, runHook_current_type] at h
      have henter := sameShape_runHook v.enter_operation_definition s ctx op
      cases op with
      | selectionSet selection_set =>
        cases hq : indexMapGet ctx.registry.types ctx.registry.query_type with
        | none => simp only [hq, TravResult.bind] at h; cases h
        | some ty =>
          simp only [hq] at h
          cases hw : (runHook v.enter_operation_definition s ctx
              (OperationDefinition.selectionSet selection_set)).2.with_type ty
              (fun ctx' => visit_selection_set fuel v
                (runHook v.enter_operation_definition s ctx
                  (OperationDefinition.selectionSet selection_set)).1 ctx' selection_set) with
          | ok a =>
            obtain ⟨s1, c1⟩ := a
            rw [hw] at h
            simp only [TravResult.bind, TravResult.ok.injEq] at h
            have hctx' : ctx' = (runHook v.exit_operation_definition s1 c1
                (OperationDefinition.selectionSet selection_set)).2 := by rw [h]
            subst hctx'
            have hshape := with_type_sameShape _ ty _ s1 c1 hw
              (fun b ctxb hb => ihss σ v _ _ selection_set b ctxb hb)
            exact sameShape_trans henter (sameShape_trans hshape
              (sameShape_runHook v.exit_operation_definition s1 c1 _))
          | panicked => rw [hw] at h; simp [TravResult.bind] at h
          | fuelOut => rw [hw] at h; simp [TravResult.bind] at h
      | query query =>
        cases hq : indexMapGet ctx.registry.types ctx.registry.query_type with
        | none => simp only [hq, TravResult.bind] at h; cases h
        | some ty =>
          simp only [hq] at h
          cases hw : (runHook v.enter_operation_definition s ctx
              (OperationDefinition.query query)).2.with_type ty
              (fun ctx' =>
                visit_selection_set fuel v
                  (visit_directives v
                    (visit_variable_definitions v
                      (runHook v.enter_operation_definition s ctx
                        (OperationDefinition.query query)).1 ctx'
                      query.variable_definitions).1
                    (visit_variable_definitions v
                      (runHook v.enter_operation_definition s ctx
                        (OperationDefinition.query query)).1 ctx'
                      query.variable_definitions).2 query.directives).1
                  (visit_directives v
                    (visit_variable_definitions v
                      (runHook v.enter_operation_definition s ctx
                        (OperationDefinition.query query)).1 ctx'
                      query.variable_definitions).1
                    (visit_variable_definitions v
                      (runHook v.enter_operation_definition s ctx
                        (OperationDefinition.query query)).1 ctx'
                      query.variable_definitions).2 query.directives).2
                  query.selection_set) with
          | ok a =>
            obtain ⟨s1, c1⟩ := a
            rw [hw] at h
            simp only [TravResult.bind, TravResult.ok.injEq] at h
            have hctx' : ctx' = (runHook v.exit_operation_definition s1 c1
                (OperationDefinition.query query)).2 := by rw [h]
            subst hctx'
            have hshape := with_type_sameShape _ ty _ s1 c1 hw (fun b ctxb hb => by
              exact sameShape_trans (sameShape_trans
                (sameShape_visit_variable_definitions v _ _ query.variable_definitions)
                (sameShape_visit_directives v _ _ query.directives))
                (ihss σ v _ _ query.selection_set b ctxb hb))
            exact sameShape_trans henter (sameShape_trans hshape
              (sameShape_runHook v.exit_operation_definition s1 c1 _))
          | panicked => rw [hw] at h; simp [TravResult.bind] at h
          | fuelOut => rw [hw] at h; simp [TravResult.bind] at h
      | mutation mutation =>
        cases hm : ctx.registry.mutation_type with
        | some mutation_type =>
          simp only [hm] at h
          cases hq : indexMapGet ctx.registry.types mutation_type with
          | none => simp only [hq, TravResult.bind] at h; cases h
          | some ty =>
            simp only [hq] at h
            cases hw : (runHook v.enter_operation_definition s ctx
                (OperationDefinition.mutation mutation)).2.with_type ty
                (fun ctx' =>
                  visit_selection_set fuel v
                    (visit_directives v
                      (visit_variable_definitions v
                        (runHook v.enter_operation_definition s ctx
                          (OperationDefinition.mutation mutation)).1 ctx'
                        mutation.variable_definitions).1
                      (visit_variable_definitions v
                        (runHook v.enter_operation_definition s ctx
                          (OperationDefinition.mutation mutation)).1 ctx'
                        mutation.variable_definitions).2 mutation.directives).1
                    (visit_directives v
                      (visit_variable_definitions v
                        (runHook v.enter_operation_definition s ctx
                          (OperationDefinition.mutation mutation)).1 ctx'
                        mutation.variable_definitions).1
                      (visit_variable_definitions v
                        (runHook v.enter_operation_definition s ctx
                          (OperationDefinition.mutation mutation)).1 ctx'
                        mutation.variable_definitions).2 mutation.directives).2
                    mutation.selection_set) with
            | ok a =>
              obtain ⟨s1, c1⟩ := a
              rw [hw] at h
              simp only [TravResult.bind, TravResult.ok.injEq] at h
              have hctx' : ctx' = (runHook v.exit_operation_definition s1 c1
                  (OperationDefinition.mutation mutation)).2 := by rw [h]
              subst hctx'
              have hshape := with_type_sameShape _ ty _ s1 c1 hw (fun b ctxb hb => by
                exact sameShape_trans (sameShape_trans
                  (sameShape_visit_variable_definitions v _ _ mutation.variable_definitions)
                  (sameShape_visit_directives v _ _ mutation.directives))
                  (ihss σ v _ _ mutation.selection_set b ctxb hb))
              exact sameShape_trans henter (sameShape_trans hshape
                (sameShape_runHook v.exit_operation_definition s1 c1 _))
            | panicked => rw [hw] at h; simp [TravResult.bind] at h
            | fuelOut => rw [hw] at h; simp [TravResult.bind] at h
        | none =>
          simp only [hm, TravResult.bind, TravResult.ok.injEq] at h
          have hctx' : ctx' = (runHook v.exit_operation_definition
              (runHook v.enter_operation_definition s ctx
                (OperationDefinition.mutation mutation)).1
              ((runHook v.enter_operation_definition s ctx
                (OperationDefinition.mutation mutation)).2.report_error
                [mutation.position] ("Schema is not configured for mutations."))
              (OperationDefinition.mutation mutation)).2 := by rw [h]
          subst hctx'
          exact sameShape_trans henter (sameShape_trans
            (sameShape_report_error _ [mutation.position] _)
            (sameShape_runHook v.exit_operation_definition _ _ _))
      | subscription subscription =>
        cases hm : ctx.registry.subscription_type with
        | some subscription_type =>
          simp only [hm] at h
          cases hq : indexMapGet ctx.registry.types subscription_type with
          | none => simp only [hq, TravResult.bind] at h; cases h
          | some ty =>
            simp only [hq] at h
            cases hw : (runHook v.enter_operation_definition s ctx
                (OperationDefinition.subscription subscription)).2.with_type ty
                (fun ctx' =>
                  visit_selection_set fuel v
                    (visit_directives v
                      (visit_variable_definitions v
                        (runHook v.enter_operation_definition s ctx
                          (OperationDefinition.subscription subscription)).1 ctx'
                        subscription.variable_definitions).1
                      (visit_variable_definitions v
                        (runHook v.enter_operation_definition s ctx
                          (OperationDefinition.subscription subscription)).1 ctx'
                        subscription.variable_definitions).2 subscription.directives).1
                    (visit_directives v
                      (visit_variable_definitions v
                        (runHook v.enter_operation_definition s ctx
                          (OperationDefinition.subscription subscription)).1 ctx'
                        subscription.variable_definitions).1
                      (visit_variable_definitions v
                        (runHook v.enter_operation_definition s ctx
                          (OperationDefinition.subscription subscription)).1 ctx'
                        subscription.variable_definitions).2 subscription.directives).2
                    subscription.selection_set) with
            | ok a =>
              obtain ⟨s1, c1⟩ := a
              rw [hw] at h
              simp only [TravResult.bind, TravResult.ok.injEq] at h
              have hctx' : ctx' = (runHook v.exit_operation_definition s1 c1
                  (OperationDefinition.subscription subscription)).2 := by rw [h]
              subst hctx'
              have hshape := with_type_sameShape _ ty _ s1 c1 hw (fun b ctxb hb => by
                exact sameShape_trans (sameShape_trans
                  (sameShape_visit_variable_definitions v _ _
                    subscription.variable_definitions)
                  (sameShape_visit_directives v _ _ subscription.directives))
                  (ihss σ v _ _ subscription.selection_set b ctxb hb))
              exact sameShape_trans henter (sameShape_trans hshape
                (sameShape_runHook v.exit_operation_definition s1 c1 _))
            | panicked => rw [hw] at h; simp [TravResult.bind] at h
            | fuelOut => rw [hw] at h; simp [TravResult.bind] at h
        | none =>
          simp only [hm, TravResult.bind, TravResult.ok.injEq] at h
          have hctx' : ctx' = (runHook v.exit_operation_definition
              (runHook v.enter_operation_definition s ctx
                (OperationDefinition.subscription subscription)).1
              ((runHook v.enter_operation_definition s ctx
                (OperationDefinition.subscription subscription)).2.report_error
                [subscription.position] ("Schema is not configured for subscriptions."))
              (OperationDefinition.subscription subscription)).2 := by rw [h]
          subst hctx'
          exact sameShape_trans henter (sameShape_trans
            (sameShape_report_error _ [subscription.position] _)
            (sameShape_runHook v.exit_operation_definition _ _ _))
    -- visit_selection_set
    · intro σ v s ctx ss s' ctx' h
      cases ss with
      | mk span items =>
        cases items with
        | nil =>
          simp only [visit_selection_set, SelectionSet.items, TravResult.ok.injEq,
            Prod.mk.injEq] at h
          rw [← h.2]
          exact sameShape_refl ctx
        | cons sel rest =>
          simp only [visit_selection_set, SelectionSet.items] at h
          obtain ⟨⟨s2, c2⟩, hl, hexit⟩ := bind_eq_ok h
          simp only [TravResult.ok.injEq] at hexit
          have hctx' : ctx' =
              (runHook v.exit_selection_set s2 c2 (SelectionSet.mk span (sel :: rest))).2 := by
            rw [hexit]
          subst hctx'
          exact sameShape_trans (sameShape_runHook v.enter_selection_set s ctx _)
            (sameShape_trans (ihsl σ v _ _ (sel :: rest) s2 c2 hl)
              (sameShape_runHook v.exit_selection_set s2 c2 _))
    -- visit_selection_list
    · intro σ v s ctx items s' ctx' h
      cases items with
      | nil =>
        simp only [visit_selection_list, TravResult.ok.injEq, Prod.mk.injEq] at h
        rw [← h.2]
        exact sameShape_refl ctx
      | cons sel rest =>
        simp only [visit_selection_list] at h
        obtain ⟨⟨s1, c1⟩, hs, hrest⟩ := bind_eq_ok h
        exact sameShape_trans (ihsel σ v s ctx sel s1 c1 hs)
          (ihsl σ v s1 c1 rest s' ctx' hrest)
    -- visit_selection
    · intro σ v s ctx sel s' ctx' h
      simp only [visit_selection, runHook_registry, runHook_current_type] at h
      cases sel with
      | field fd =>
        cases hcur : ctx.current_type with
        | none => simp only [hcur, TravResult.bind] at h; cases h
        | some t =>
          simp only [hcur] at h
          cases hfb : t.field_by_name fd.name with
          | some schema_field =>
            simp only [hfb] at h
            cases hbt : ctx.registry.basic_type_by_typename schema_field.ty with
            | none => simp only [hbt, TravResult.bind] at h; cases h
            | some ty =>
              simp only [hbt] at h
              obtain ⟨⟨s1, c1⟩, hw, hexit⟩ := bind_eq_ok h
              simp only [TravResult.ok.injEq] at hexit
              have hctx' : ctx' = (runHook v.exit_selection s1 c1 (Selection.field fd)).2 := by
                rw [hexit]
              subst hctx'
              have hshape := with_type_sameShape _ ty _ s1 c1 hw
                (fun b ctxb hb => ihf σ v _ _ fd b ctxb hb)
              exact sameShape_trans (sameShape_runHook v.enter_selection s ctx _)
                (sameShape_trans hshape (sameShape_runHook v.exit_selection s1 c1 _))
          | none =>
            simp only [hfb, TravResult.bind, TravResult.ok.injEq] at h
            have hctx' : ctx' = (runHook v.exit_selection
                (runHook v.enter_selection s ctx (Selection.field fd)).1
                ((runHook v.enter_selection s ctx (Selection.field fd)).2.report_error
                  [fd.position]
                  ("Cannot query field \"" ++ fd.name ++ "\" on type \"" ++
                    t.name ++ "\".")) (Selection.field fd)).2 := by
              rw [h]
            subst hctx'
            exact sameShape_trans (sameShape_runHook v.enter_selection s ctx _)
              (sameShape_trans (sameShape_report_error _ [fd.position] _)
                (sameShape_runHook v.exit_selection _ _ _))
      | fragmentSpread fs =>
        obtain ⟨⟨s1, c1⟩, hsub, hexit⟩ := bind_eq_ok h
        simp only [TravResult.ok.injEq] at hexit
        have hctx' : ctx' =
            (runHook v.exit_selection s1 c1 (Selection.fragmentSpread fs)).2 := by
          rw [hexit]
        subst hctx'
        exact sameShape_trans (sameShape_runHook v.enter_selection s ctx _)
          (sameShape_trans (ihfs σ v _ _ fs s1 c1 hsub)
            (sameShape_runHook v.exit_selection s1 c1 _))
      | inlineFragment infr =>
        cases htc : infr.type_condition with
        | some tc =>
          cases tc with
          | On name =>
            simp only [htc] at h
            cases hty : indexMapGet ctx.registry.types name with
            | some ty =>
              simp only [hty] at h
              obtain ⟨⟨s1, c1⟩, hw, hexit⟩ := bind_eq_ok h
              simp only [TravResult.ok.injEq] at hexit
              have hctx' : ctx' =
                  (runHook v.exit_selection s1 c1 (Selection.inlineFragment infr)).2 := by
                rw [hexit]
              subst hctx'
              have hshape := with_type_sameShape _ ty _ s1 c1 hw
                (fun b ctxb hb => ihif σ v _ _ infr b ctxb hb)
              exact sameShape_trans (sameShape_runHook v.enter_selection s ctx _)
                (sameShape_trans hshape (sameShape_runHook v.exit_selection s1 c1 _))
            | none =>
              simp only [hty, TravResult.bind, TravResult.ok.injEq] at h
              have hctx' : ctx' = (runHook v.exit_selection
                  (runHook v.enter_selection s ctx (Selection.inlineFragment infr)).1
                  ((runHook v.enter_selection s ctx (Selection.inlineFragment infr)).2.report_error
                    [infr.position] ("Unknown type \"" ++ name ++ "\"."))
                  (Selection.inlineFragment infr)).2 := by
                rw [h]
              subst hctx'
              exact sameShape_trans (sameShape_runHook v.enter_selection s ctx _)
                (sameShape_trans (sameShape_report_error _ [infr.position] _)
                  (sameShape_runHook v.exit_selection _ _ _))
        | none =>
          simp only [htc, TravResult.bind, TravResult.ok.injEq] at h
          have hctx' : ctx' = (runHook v.exit_selection
              (runHook v.enter_selection s ctx (Selection.inlineFragment infr)).1
              (runHook v.enter_selection s ctx (Selection.inlineFragment infr)).2
              (Selection.inlineFragment infr)).2 := by
            rw [h]
          subst hctx'
          exact sameShape_trans (sameShape_runHook v.enter_selection s ctx _)
            (sameShape_runHook v.exit_selection _ _ _)
    -- visit_field
    · intro σ v s ctx fd s' ctx' h
      simp only [visit_field] at h
      obtain ⟨⟨s2, c2⟩, hss, hexit⟩ := bind_eq_ok h
      simp only [TravResult.ok.injEq] at hexit
      have hctx' : ctx' = (runHook v.exit_field s2 c2 fd).2 := by rw [hexit]
      subst hctx'
      refine sameShape_trans ?_ (sameShape_runHook v.exit_field s2 c2 fd)
      refine sameShape_trans ?_ (ihss σ v _ _ fd.selection_set s2 c2 hss)
      exact sameShape_trans (sameShape_runHook v.enter_field s ctx fd)
        (sameShape_trans (sameShape_visit_arguments v _ _ fd.position fd.arguments)
          (sameShape_visit_directives v _ _ fd.directives))
    -- visit_fragment_definition
    · intro σ v s ctx fragd s' ctx' h
      simp only [visit_fragment_definition] at h
      obtain ⟨⟨s2, c2⟩, hss, hexit⟩ := bind_eq_ok h
      simp only [TravResult.ok.injEq] at hexit
      have hctx' : ctx' = (runHook v.exit_fragment_definition s2 c2 fragd).2 := by
        rw [hexit]
      subst hctx'
      refine sameShape_trans ?_ (sameShape_runHook v.exit_fragment_definition s2 c2 fragd)
      refine sameShape_trans ?_ (ihss σ v _ _ fragd.selection_set s2 c2 hss)
      exact sameShape_trans (sameShape_runHook v.enter_fragment_definition s ctx fragd)
        (sameShape_visit_directives v _ _ fragd.directives)
    -- visit_fragment_spread
    · intro σ v s ctx fs s' ctx' h
      simp only [visit_fragment_spread] at h
      obtain ⟨a2, hmid, hexit⟩ := bind_eq_ok h
      simp only [TravResult.ok.injEq] at hexit
      have hctx' : ctx' = (runHook v.exit_fragment_spread a2.1 a2.2 fs).2 := by rw [hexit]
      subst hctx'
      refine sameShape_trans ?_ (sameShape_runHook v.exit_fragment_spread a2.1 a2.2 fs)
      have hpre : sameShape ctx (visit_directives v
          (runHook v.enter_fragment_spread s ctx fs).1
          (runHook v.enter_fragment_spread s ctx fs).2 fs.directives).2 :=
        sameShape_trans (sameShape_runHook v.enter_fragment_spread s ctx fs)
          (sameShape_visit_directives v _ _ fs.directives)
      cases hfr : (visit_directives v (runHook v.enter_fragment_spread s ctx fs).1
          (runHook v.enter_fragment_spread s ctx fs).2 fs.directives).2.fragment
          fs.fragment_name with
      | some fragment =>
        rw [hfr] at hmid
        exact sameShape_trans hpre (ihss σ v _ _ fragment.selection_set a2.1 a2.2 hmid)
      | none =>
        rw [hfr] at hmid
        simp only [TravResult.ok.injEq] at hmid
        rw [← hmid]
        exact hpre
    -- visit_inline_fragment
    · intro σ v s ctx infr s' ctx' h
      simp only [visit_inline_fragment] at h
      obtain ⟨⟨s2, c2⟩, hss, hexit⟩ := bind_eq_ok h
      simp only [TravResult.ok.injEq] at hexit
      have hctx' : ctx' = (runHook v.exit_inline_fragment s2 c2 infr).2 := by rw [hexit]
      subst hctx'
      refine sameShape_trans ?_ (sameShape_runHook v.exit_inline_fragment s2 c2 infr)
      refine sameShape_trans ?_ (ihss σ v _ _ infr.selection_set s2 c2 hss)
      exact sameShape_trans (sameShape_runHook v.enter_inline_fragment s ctx infr)
        (sameShape_visit_directives v _ _ infr.directives)



/-! ### C9 -/

/-- An operation selecting the known field `a` on the sample query type. -/
def opQ : Operation :=
  { position := pos13, name := none, variable_definitions := [], directives := []
    selection_set := SelectionSet.mk (⟨1, 1⟩, ⟨1, 9⟩) [Selection.field fdA] }

/-- A document with one query operation. -/
def docQ : Document := ⟨[Definition.operation (OperationDefinition.query opQ)]⟩

/-- The fresh context over the sample registry and `docQ`. -/
def ctxDocQ : VisitorContext := VisitorContext.new reg0 docQ

/-- C9: the traversal keeps the type stack balanced — whenever `visit`
returns normally the context's type stack equals the stack it started
with; in particular a `visit` started from a fresh context ends with the
empty stack it began with. -/
theorem c9_type_stack_balanced :
    (∀ (σ : Type) (fuel : Nat) (v : Visitor σ) (s : σ) (ctx : VisitorContext)
      (doc : Document) (s' : σ) (ctx' : VisitorContext),
      visit fuel v s ctx doc = .ok (s', ctx') → ctx'.type_stack = ctx.type_stack) ∧
    (∀ (σ : Type) (fuel : Nat) (v : Visitor σ) (s : σ) (r : Registry) (doc : Document)
      (s' : σ) (ctx' : VisitorContext),
      visit fuel v s (VisitorContext.new r doc) doc = .ok (s', ctx') →
      ctx'.type_stack = []) := by
  constructor
  · intro σ fuel v s ctx doc s' ctx' h
    exact ((trav_sameShape fuel).1 σ v s ctx doc s' ctx' h).2.1
  · intro σ fuel v s r doc s' ctx' h
    exact ((trav_sameShape fuel).1 σ v s (VisitorContext.new r doc) doc s' ctx' h).2.1

/-- Witness for C9: running the traversal over `docQ` (one query selecting
a known field, so a type is pushed and popped) ends with the empty type
stack. -/
theorem c9_witness : ctxDocQ.type_stack = ([] : List MetaType) :=
  c9_type_stack_balanced.2 Unit 9 VisitorNil () reg0 docQ () ctxDocQ rfl


/-! ### Registry closure and panic-freedom (C5) -/

/-- The base names of every textual TypeRef occurring inside a registered
MetaType: field output types and argument types of Objects and Interfaces,
and the input field types of InputObjects. -/
def typeRefNames (t : MetaType) : List String :=
  match t with
  | .object _ fields _ =>
      fields.flatMap (fun kv => concreteTypename kv.2.ty ::
        kv.2.args.map (fun akv => concreteTypename akv.2.ty))
  | .interface _ fields _ =>
      fields.flatMap (fun kv => concreteTypename kv.2.ty ::
        kv.2.args.map (fun akv => concreteTypename akv.2.ty))
  | .inputObject _ input_fields =>
      input_fields.map (fun kv => concreteTypename kv.2.ty)
  | _ => []

/-- The closure property checked at schema finalization: every Named
TypeRef occurring inside a registered MetaType resolves in the registry. -/
def registryClosed (r : Registry) : Prop :=
  ∀ kv ∈ r.types, ∀ n ∈ typeRefNames kv.2, (indexMapGet r.types n).isSome = true

/-- The root types that are configured are registered (the query root
always, the mutation/subscription roots when present). -/
def rootsOk (r : Registry) : Prop :=
  (indexMapGet r.types r.query_type).isSome = true ∧
  r.mutation_type.all (fun m => (indexMapGet r.types m).isSome) = true ∧
  r.subscription_type.all (fun m => (indexMapGet r.types m).isSome) = true

/-- A MetaType value is registered when some name maps to it. -/
def registeredType (r : Registry) (t : MetaType) : Prop :=
  ∃ n, indexMapGet r.types n = some t

/-- Every type on the context's stack is registered. -/
def stackRegistered (ctx : VisitorContext) : Prop :=
  ∀ t ∈ ctx.type_stack, registeredType ctx.registry t

theorem mem_of_indexMapGet {α : Type} {m : List (String × α)} {k : String} {v : α}
    (h : indexMapGet m k = some v) : (k, v) ∈ m := by
  induction m with
  | nil => simp [indexMapGet] at h
  | cons kv rest ih =>
    obtain ⟨k', v'⟩ := kv
    by_cases hk : k' = k
    · subst hk
      have hv : v' = v := by simpa [indexMapGet] using h
      subst hv
      exact List.mem_cons_self _ _
    · simp only [indexMapGet, if_neg hk] at h
      exact List.mem_cons_of_mem _ (ih h)

theorem registered_of_get {r : Registry} {n : String} {t : MetaType}
    (h : indexMapGet r.types n = some t) : registeredType r t :=
  ⟨n, h⟩

theorem registered_of_basic_type {r : Registry} {ty : String} {t : MetaType}
    (h : r.basic_type_by_typename ty = some t) : registeredType r t :=
  ⟨concreteTypename ty, h⟩

/-- The local form of C5: under the closure property, the base-type lookup
for a field found on a registered type always succeeds. -/
theorem field_base_type_resolves {r : Registry} (hclosed : registryClosed r)
    {t : MetaType} (hreg : registeredType r t) {fname : String} {mf : MetaField}
    (hf : t.field_by_name fname = some mf) :
    (r.basic_type_by_typename mf.ty).isSome = true := by
  obtain ⟨n, hn⟩ := hreg
  have hmem : (n, t) ∈ r.types := mem_of_indexMapGet hn
  have hname : concreteTypename mf.ty ∈ typeRefNames t := by
    cases t with
    | object nm fields impls =>
      simp only [MetaType.field_by_name] at hf
      have hfm : (fname, mf) ∈ fields := mem_of_indexMapGet hf
      simp only [typeRefNames, List.mem_flatMap]
      exact ⟨(fname, mf), hfm, List.mem_cons_self _ _⟩
    | interface nm fields pts =>
      simp only [MetaType.field_by_name] at hf
      have hfm : (fname, mf) ∈ fields := mem_of_indexMapGet hf
      simp only [typeRefNames, List.mem_flatMap]
      exact ⟨(fname, mf), hfm, List.mem_cons_self _ _⟩
    | union nm pts => simp [MetaType.field_by_name] at hf
    | enum nm d ev vis inacc tags rtn => simp [MetaType.field_by_name] at hf
    | inputObject nm ifs => simp [MetaType.field_by_name] at hf
    | scalar nm => simp [MetaType.field_by_name] at hf
  exact hclosed (n, t) hmem _ hname

theorem hyps_transport {ctx ctx' : VisitorContext} (hsh : sameShape ctx ctx')
    (hclosed : registryClosed ctx.registry) (hroots : rootsOk ctx.registry)
    (hsr : stackRegistered ctx) :
    registryClosed ctx'.registry ∧ rootsOk ctx'.registry ∧ stackRegistered ctx' := by
  refine ⟨by rw [hsh.1]; exact hclosed, by rw [hsh.1]; exact hroots, ?_⟩
  intro t ht
  rw [hsh.2.1] at ht
  rw [hsh.1]
  exact hsr t ht

theorem stackRegistered_push {ctx : VisitorContext} {ty : MetaType}
    (hty : registeredType ctx.registry ty) (hsr : stackRegistered ctx) :
    stackRegistered { ctx with type_stack := ty :: ctx.type_stack } := by
  intro t ht
  rcases List.mem_cons.mp ht with h | h
  · subst h; exact hty
  · exact hsr t h

theorem bind_eq_panicked {α β : Type} {r : TravResult α} {f : α → TravResult β}
    (h : r.bind f = .panicked) :
    r = .panicked ∨ ∃ a, r = .ok a ∧ f a = .panicked := by
  cases r with
  | ok a => exact Or.inr ⟨a, rfl, h⟩
  | panicked => exact Or.inl rfl
  | fuelOut => simp [TravResult.bind] at h

theorem with_type_eq_panicked {α : Type} {ctx : VisitorContext} {ty : MetaType}
    {f : VisitorContext → TravResult (α × VisitorContext)}
    (h : ctx.with_type ty f = .panicked) :
    f { ctx with type_stack := ty :: ctx.type_stack } = .panicked := by
  unfold VisitorContext.with_type at h
  cases hf : f { ctx with type_stack := ty :: ctx.type_stack } with
  | ok a => obtain ⟨b, c⟩ := a; rw [hf] at h; cases h
  | panicked => rfl
  | fuelOut => rw [hf] at h; cases h


theorem trav_no_panic : ∀ fuel : Nat,
    (∀ (σ : Type) (v : Visitor σ) (s : σ) (ctx : VisitorContext) (doc : Document),
      registryClosed ctx.registry → rootsOk ctx.registry → stackRegistered ctx →
      visit fuel v s ctx doc ≠ .panicked) ∧
    (∀ (σ : Type) (v : Visitor σ) (s : σ) (ctx : VisitorContext) (defs : List Definition),
      registryClosed ctx.registry → rootsOk ctx.registry → stackRegistered ctx →
      visit_definitions fuel v s ctx defs ≠ .panicked) ∧
    (∀ (σ : Type) (v : Visitor σ) (s : σ) (ctx : VisitorContext) (op : OperationDefinition),
      registryClosed ctx.registry → rootsOk ctx.registry → stackRegistered ctx →
      visit_operation_definition fuel v s ctx op ≠ .panicked) ∧
    (∀ (σ : Type) (v : Visitor σ) (s : σ) (ctx : VisitorContext) (ss : SelectionSet),
      registryClosed ctx.registry → rootsOk ctx.registry → stackRegistered ctx →
      ctx.type_stack ≠ [] → visit_selection_set fuel v s ctx ss ≠ .panicked) ∧
    (∀ (σ : Type) (v : Visitor σ) (s : σ) (ctx : VisitorContext) (items : List Selection),
      registryClosed ctx.registry → rootsOk ctx.registry → stackRegistered ctx →
      ctx.type_stack ≠ [] → visit_selection_list fuel v s ctx items ≠ .panicked) ∧
    (∀ (σ : Type) (v : Visitor σ) (s : σ) (ctx : VisitorContext) (sel : Selection),
      registryClosed ctx.registry → rootsOk ctx.registry → stackRegistered ctx →
      ctx.type_stack ≠ [] → visit_selection fuel v s ctx sel ≠ .panicked) ∧
    (∀ (σ : Type) (v : Visitor σ) (s : σ) (ctx : VisitorContext) (fd : Field),
      registryClosed ctx.registry → rootsOk ctx.registry → stackRegistered ctx →
      ctx.type_stack ≠ [] → visit_field fuel v s ctx fd ≠ .panicked) ∧
    (∀ (σ : Type) (v : Visitor σ) (s : σ) (ctx : VisitorContext)
      (fragd : FragmentDefinition),
      registryClosed ctx.registry → rootsOk ctx.registry → stackRegistered ctx →
      ctx.type_stack ≠ [] → visit_fragment_definition fuel v s ctx fragd ≠ .panicked) ∧
    (∀ (σ : Type) (v : Visitor σ) (s : σ) (ctx : VisitorContext) (fs : FragmentSpread),
      registryClosed ctx.registry → rootsOk ctx.registry → stackRegistered ctx →
      ctx.type_stack ≠ [] → visit_fragment_spread fuel v s ctx fs ≠ .panicked) ∧
    (∀ (σ : Type) (v : Visitor σ) (s : σ) (ctx : VisitorContext) (infr : InlineFragment),
      registryClosed ctx.registry → rootsOk ctx.registry → stackRegistered ctx →
      ctx.type_stack ≠ [] → visit_inline_fragment fuel v s ctx infr ≠ .panicked) := by
  intro fuel
  induction fuel with
  | zero =>
    refine ⟨?_, ?_, ?_, ?_, ?_, ?_, ?_, ?_, ?_, ?_⟩
    · intro σ v s ctx doc _ _ _; simp [visit]
    · intro σ v s ctx defs _ _ _; simp [visit_definitions]
    · intro σ v s ctx op _ _ _; simp [visit_operation_definition]
    · intro σ v s ctx ss _ _ _ _; simp [visit_selection_set]
    · intro σ v s ctx items _ _ _ _; simp [visit_selection_list]
    · intro σ v s ctx sel _ _ _ _; simp [visit_selection]
    · intro σ v s ctx fd _ _ _ _; simp [visit_field]
    · intro σ v s ctx fragd _ _ _ _; simp [visit_fragment_definition]
    · intro σ v s ctx fs _ _ _ _; simp [visit_fragment_spread]
    · intro σ v s ctx infr _ _ _ _; simp [visit_inline_fragment]
  | succ fuel ih =>
    obtain ⟨ihv, ihd, ihop, ihss, ihsl, ihsel, ihf, ihfd, ihfs, ihif⟩ := ih
    refine ⟨?_, ?_, ?_, ?_, ?_, ?_, ?_, ?_, ?_, ?_⟩
    -- visit
    · intro σ v s ctx doc hclosed hroots hsr hcontra
      simp only [visit] at hcontra
      rcases bind_eq_panicked hcontra with hsub | ⟨a2, _, hrest⟩
      · obtain ⟨hc, hr, hs2⟩ := hyps_transport
          (sameShape_runHook v.enter_document s ctx doc) hclosed hroots hsr
        exact ihd σ v _ _ doc.definitions hc hr hs2 hsub
      · cases hrest
    -- visit_definitions
    · intro σ v s ctx defs hclosed hroots hsr hcontra
      cases defs with
      | nil => simp [visit_definitions] at hcontra
      | cons d rest =>
        cases d with
        | operation operation =>
          simp only [visit_definitions] at hcontra
          rcases bind_eq_panicked hcontra with hsub | ⟨a, hok, hrest⟩
          · exact ihop σ v s ctx operation hclosed hroots hsr hsub
          · obtain ⟨s1, c1⟩ := a
            have hsh := (trav_sameShape fuel).2.2.1 σ v s ctx operation s1 c1 hok
            obtain ⟨hc, hr, hs2⟩ := hyps_transport hsh hclosed hroots hsr
            exact ihd σ v s1 c1 rest hc hr hs2 hrest
        | fragment fragment =>
          cases htc : fragment.type_condition with
          | On name =>
            simp only [visit_definitions, htc] at hcontra
            cases hty : indexMapGet ctx.registry.types name with
            | some ty =>
              simp only [hty] at hcontra
              rcases bind_eq_panicked hcontra with hsub | ⟨a, hok, hrest⟩
              · have hbody := with_type_eq_panicked hsub
                have hpush : stackRegistered
                    { ctx with type_stack := ty :: ctx.type_stack } :=
                  stackRegistered_push (registered_of_get hty) hsr
                exact ihfd σ v s { ctx with type_stack := ty :: ctx.type_stack }
                  fragment hclosed hroots hpush (by simp) hbody
              · obtain ⟨s1, c1⟩ := a
                have hsh : sameShape ctx c1 := with_type_sameShape ctx ty _ s1 c1 hok
                  (fun b ctxb hb =>
                    (trav_sameShape fuel).2.2.2.2.2.2.2.1 σ v s _ fragment b ctxb hb)
                obtain ⟨hc, hr, hs2⟩ := hyps_transport hsh hclosed hroots hsr
                exact ihd σ v s1 c1 rest hc hr hs2 hrest
            | none =>
              simp only [hty, TravResult.bind] at hcontra
              obtain ⟨hc, hr, hs2⟩ := hyps_transport
                (sameShape_report_error ctx [fragment.position] _) hclosed hroots hsr
              exact ihd σ v s _ rest hc hr hs2 hcontra
    -- visit_operation_definition
    · intro σ v s ctx op hclosed hroots hsr hcontra
      simp only [visit_operation_definition, runHook_registry] at hcontra
      cases op with
      | selectionSet selection_set =>
        cases hq : indexMapGet ctx.registry.types ctx.registry.query_type with
        | none => have h1 := hroots.1; rw [hq] at h1; simp at h1
        | some ty =>
          simp only [hq] at hcontra
          rcases bind_eq_panicked hcontra with hsub | ⟨a, hok, hrest⟩
          · have hbody := with_type_eq_panicked hsub
            obtain ⟨hc, hr, hs2⟩ := hyps_transport
              (sameShape_runHook v.enter_operation_definition s ctx
                (OperationDefinition.selectionSet selection_set)) hclosed hroots hsr
            have hpush := stackRegistered_push (registered_of_get hq) hs2
            exact ihss σ v _
              { (runHook v.enter_operation_definition s ctx
                  (OperationDefinition.selectionSet selection_set)).2 with
                type_stack := ty :: (runHook v.enter_operation_definition s ctx
                  (OperationDefinition.selectionSet selection_set)).2.type_stack }
              selection_set hc hr hpush (by simp) hbody
          · cases hrest
      | query query =>
        cases hq : indexMapGet ctx.registry.types ctx.registry.query_type with
        | none => have h1 := hroots.1; rw [hq] at h1; simp at h1
        | some ty =>
          simp only [hq] at hcontra
          rcases bind_eq_panicked hcontra with hsub | ⟨a, hok, hrest⟩
          · have hbody := with_type_eq_panicked hsub
            obtain ⟨hc, hr, hs2⟩ := hyps_transport
              (sameShape_runHook v.enter_operation_definition s ctx
                (OperationDefinition.query query)) hclosed hroots hsr
            have hpush := stackRegistered_push (registered_of_get hq) hs2
            refine ihss σ v _ _ query.selection_set ?_ ?_ ?_ ?_ hbody
            · rw [visit_directives_registry, visit_variable_definitions_registry]
              exact hc
            · rw [visit_directives_registry, visit_variable_definitions_registry]
              exact hr
            · intro t ht
              rw [visit_directives_type_stack, visit_variable_definitions_type_stack] at ht
              rw [visit_directives_registry, visit_variable_definitions_registry]
              exact hpush t ht
            · rw [visit_directives_type_stack, visit_variable_definitions_type_stack]
              simp
          · cases hrest
      | mutation mutation =>
        cases hm : ctx.registry.mutation_type with
        | none => simp only [hm, TravResult.bind] at hcontra; cases hcontra
        | some mutation_type =>
          have hall := hroots.2.1
          rw [hm] at hall
          simp only [Option.all] at hall
          cases hq : indexMapGet ctx.registry.types mutation_type with
          | none => rw [hq] at hall; simp at hall
          | some ty =>
            simp only [hm, hq] at hcontra
            rcases bind_eq_panicked hcontra with hsub | ⟨a, hok, hrest⟩
            · have hbody := with_type_eq_panicked hsub
              obtain ⟨hc, hr, hs2⟩ := hyps_transport
                (sameShape_runHook v.enter_operation_definition s ctx
                  (OperationDefinition.mutation mutation)) hclosed hroots hsr
              have hpush := stackRegistered_push (registered_of_get hq) hs2
              refine ihss σ v _ _ mutation.selection_set ?_ ?_ ?_ ?_ hbody
              · rw [visit_directives_registry, visit_variable_definitions_registry]
                exact hc
              · rw [visit_directives_registry, visit_variable_definitions_registry]
                exact hr
              · intro t ht
                rw [visit_directives_type_stack, visit_variable_definitions_type_stack] at ht
                rw [visit_directives_registry, visit_variable_definitions_registry]
                exact hpush t ht
              · rw [visit_directives_type_stack, visit_variable_definitions_type_stack]
                simp
            · cases hrest
      | subscription subscription =>
        cases hm : ctx.registry.subscription_type with
        | none => simp only [hm, TravResult.bind] at hcontra; cases hcontra
        | some subscription_type =>
          have hall := hroots.2.2
          rw [hm] at hall
          simp only [Option.all] at hall
          cases hq : indexMapGet ctx.registry.types subscription_type with
          | none => rw [hq] at hall; simp at hall
          | some ty =>
            simp only [hm, hq] at hcontra
            rcases bind_eq_panicked hcontra with hsub | ⟨a, hok, hrest⟩
            · have hbody := with_type_eq_panicked hsub
              obtain ⟨hc, hr, hs2⟩ := hyps_transport
                (sameShape_runHook v.enter_operation_definition s ctx
                  (OperationDefinition.subscription subscription)) hclosed hroots hsr
              have hpush := stackRegistered_push (registered_of_get hq) hs2
              refine ihss σ v _ _ subscription.selection_set ?_ ?_ ?_ ?_ hbody
              · rw [visit_directives_registry, visit_variable_definitions_registry]
                exact hc
              · rw [visit_directives_registry, visit_variable_definitions_registry]
                exact hr
              · intro t ht
                rw [visit_directives_type_stack, visit_variable_definitions_type_stack] at ht
                rw [visit_directives_registry, visit_variable_definitions_registry]
                exact hpush t ht
              · rw [visit_directives_type_stack, visit_variable_definitions_type_stack]
                simp
            · cases hrest
    -- visit_selection_set
    · intro σ v s ctx ss hclosed hroots hsr hnil hcontra
      cases ss with
      | mk span items =>
        cases items with
        | nil => simp [visit_selection_set, SelectionSet.items] at hcontra
        | cons sel rest =>
          simp only [visit_selection_set, SelectionSet.items] at hcontra
          rcases bind_eq_panicked hcontra with hsub | ⟨a, hok, hrest⟩
          · obtain ⟨hc, hr, hs2⟩ := hyps_transport
              (sameShape_runHook v.enter_selection_set s ctx
                (SelectionSet.mk span (sel :: rest))) hclosed hroots hsr
            refine ihsl σ v _ _ (sel :: rest) hc hr hs2 ?_ hsub
            rw [runHook_type_stack]
            exact hnil
          · cases hrest
    -- visit_selection_list
    · intro σ v s ctx items hclosed hroots hsr hnil hcontra
      cases items with
      | nil => simp [visit_selection_list] at hcontra
      | cons sel rest =>
        simp only [visit_selection_list] at hcontra
        rcases bind_eq_panicked hcontra with hsub | ⟨a, hok, hrest⟩
        · exact ihsel σ v s ctx sel hclosed hroots hsr hnil hsub
        · obtain ⟨s1, c1⟩ := a
          have hsh := (trav_sameShape fuel).2.2.2.2.2.1 σ v s ctx sel s1 c1 hok
          obtain ⟨hc, hr, hs2⟩ := hyps_transport hsh hclosed hroots hsr
          refine ihsl σ v s1 c1 rest hc hr hs2 ?_ hrest
          rw [hsh.2.1]
          exact hnil
    -- visit_selection
    · intro σ v s ctx sel hclosed hroots hsr hnil hcontra
      simp only [visit_selection, runHook_registry, runHook_current_type] at hcontra
      cases sel with
      | field fd =>
        cases hstk : ctx.type_stack with
        | nil => exact hnil hstk
        | cons t trest =>
          have hcur : ctx.current_type = some t := by
            simp [VisitorContext.current_type, hstk]
          simp only [hcur] at hcontra
          have htreg : registeredType ctx.registry t :=
            hsr t (by rw [hstk]; exact List.mem_cons_self _ _)
          cases hfb : t.field_by_name fd.name with
          | some schema_field =>
            simp only [hfb] at hcontra
            have hbt := field_base_type_resolves hclosed htreg hfb
            cases hbt2 : ctx.registry.basic_type_by_typename schema_field.ty with
            | none => rw [hbt2] at hbt; simp at hbt
            | some ty =>
              simp only [hbt2] at hcontra
              rcases bind_eq_panicked hcontra with hsub | ⟨a, hok, hrest⟩
              · have hbody := with_type_eq_panicked hsub
                obtain ⟨hc, hr, hs2⟩ := hyps_transport
                  (sameShape_runHook v.enter_selection s ctx (Selection.field fd))
                  hclosed hroots hsr
                have hpush := stackRegistered_push (registered_of_basic_type hbt2) hs2
                exact ihf σ v _
                  { (runHook v.enter_selection s ctx (Selection.field fd)).2 with
                    type_stack := ty :: (runHook v.enter_selection s ctx
                      (Selection.field fd)).2.type_stack }
                  fd hc hr hpush (by simp) hbody
              · cases hrest
          | none =>
            simp only [hfb, TravResult.bind] at hcontra
            cases hcontra
      | fragmentSpread fs =>
        rcases bind_eq_panicked hcontra with hsub | ⟨a, hok, hrest⟩
        · obtain ⟨hc, hr, hs2⟩ := hyps_transport
            (sameShape_runHook v.enter_selection s ctx (Selection.fragmentSpread fs))
            hclosed hroots hsr
          refine ihfs σ v _ _ fs hc hr hs2 ?_ hsub
          rw [runHook_type_stack]
          exact hnil
        · cases hrest
      | inlineFragment infr =>
        cases htc : infr.type_condition with
        | some tc =>
          cases tc with
          | On name =>
            simp only [htc] at hcontra
            cases hty : indexMapGet ctx.registry.types name with
            | some ty =>
              simp only [hty] at hcontra
              rcases bind_eq_panicked hcontra with hsub | ⟨a, hok, hrest⟩
              · have hbody := with_type_eq_panicked hsub
                obtain ⟨hc, hr, hs2⟩ := hyps_transport
                  (sameShape_runHook v.enter_selection s ctx (Selection.inlineFragment infr))
                  hclosed hroots hsr
                have hpush := stackRegistered_push (registered_of_get hty) hs2
                exact ihif σ v _
                  { (runHook v.enter_selection s ctx (Selection.inlineFragment infr)).2 with
                    type_stack := ty :: (runHook v.enter_selection s ctx
                      (Selection.inlineFragment infr)).2.type_stack }
                  infr hc hr hpush (by simp) hbody
              · cases hrest
            | none =>
              simp only [hty, TravResult.bind] at hcontra
              cases hcontra
        | none =>
          simp only [htc, TravResult.bind] at hcontra
          cases hcontra
    -- visit_field
    · intro σ v s ctx fd hclosed hroots hsr hnil hcontra
      simp only [visit_field] at hcontra
      rcases bind_eq_panicked hcontra with hsub | ⟨a, hok, hrest⟩
      · refine ihss σ v _ _ fd.selection_set ?_ ?_ ?_ ?_ hsub
        · rw [visit_directives_registry, visit_arguments_registry, runHook_registry]
          exact hclosed
        · rw [visit_directives_registry, visit_arguments_registry, runHook_registry]
          exact hroots
        · intro t ht
          rw [visit_directives_type_stack, visit_arguments_type_stack,
            runHook_type_stack] at ht
          rw [visit_directives_registry, visit_arguments_registry, runHook_registry]
          exact hsr t ht
        · rw [visit_directives_type_stack, visit_arguments_type_stack, runHook_type_stack]
          exact hnil
      · cases hrest
    -- visit_fragment_definition
    · intro σ v s ctx fragd hclosed hroots hsr hnil hcontra
      simp only [visit_fragment_definition] at hcontra
      rcases bind_eq_panicked hcontra with hsub | ⟨a, hok, hrest⟩
      · refine ihss σ v _ _ fragd.selection_set ?_ ?_ ?_ ?_ hsub
        · rw [visit_directives_registry, runHook_registry]
          exact hclosed
        · rw [visit_directives_registry, runHook_registry]
          exact hroots
        · intro t ht
          rw [visit_directives_type_stack, runHook_type_stack] at ht
          rw [visit_directives_registry, runHook_registry]
          exact hsr t ht
        · rw [visit_directives_type_stack, runHook_type_stack]
          exact hnil
      · cases hrest
    -- visit_fragment_spread
    · intro σ v s ctx fs hclosed hroots hsr hnil hcontra
      simp only [visit_fragment_spread] at hcontra
      rcases bind_eq_panicked hcontra with hsub | ⟨a, hok, hrest⟩
      · cases hfr : (visit_directives v (runHook v.enter_fragment_spread s ctx fs).1
            (runHook v.enter_fragment_spread s ctx fs).2 fs.directives).2.fragment
            fs.fragment_name with
        | some fragment =>
          simp only [hfr] at hsub
          refine ihss σ v _ _ fragment.selection_set ?_ ?_ ?_ ?_ hsub
          · rw [visit_directives_registry, runHook_registry]
            exact hclosed
          · rw [visit_directives_registry, runHook_registry]
            exact hroots
          · intro t ht
            rw [visit_directives_type_stack, runHook_type_stack] at ht
            rw [visit_directives_registry, runHook_registry]
            exact hsr t ht
          · rw [visit_directives_type_stack, runHook_type_stack]
            exact hnil
        | none =>
          simp only [hfr] at hsub
          cases hsub
      · cases hrest
    -- visit_inline_fragment
    · intro σ v s ctx infr hclosed hroots hsr hnil hcontra
      simp only [visit_inline_fragment] at hcontra
      rcases bind_eq_panicked hcontra with hsub | ⟨a, hok, hrest⟩
      · refine ihss σ v _ _ infr.selection_set ?_ ?_ ?_ ?_ hsub
        · rw [visit_directives_registry, runHook_registry]
          exact hclosed
        · rw [visit_directives_registry, runHook_registry]
          exact hroots
        · intro t ht
          rw [visit_directives_type_stack, runHook_type_stack] at ht
          rw [visit_directives_registry, runHook_registry]
          exact hsr t ht
        · rw [visit_directives_type_stack, runHook_type_stack]
          exact hnil
      · cases hrest



/-! ### C5 -/

/-- C5: under the closure precondition — every Named TypeRef occurring
inside a registered MetaType resolves in the registry — the base-type
lookup performed when descending into a known field never fails, and (with
the configured root types registered) the whole traversal never reaches a
panic: the `unwrap` of `basic_type_by_typename` is unreachable in its
error case. -/
theorem c5_base_type_lookup_safe :
    (∀ (r : Registry) (t : MetaType) (fname : String) (mf : MetaField),
      registryClosed r → registeredType r t → t.field_by_name fname = some mf →
      (r.basic_type_by_typename mf.ty).isSome = true) ∧
    (∀ (σ : Type) (fuel : Nat) (v : Visitor σ) (s : σ) (r : Registry) (doc : Document),
      registryClosed r → rootsOk r →
      visit fuel v s (VisitorContext.new r doc) doc ≠ .panicked) := by
  constructor
  · intro r t fname mf hclosed hreg hf
    exact field_base_type_resolves hclosed hreg hf
  · intro σ fuel v s r doc hclosed hroots
    exact (trav_no_panic fuel).1 σ v s (VisitorContext.new r doc) doc hclosed hroots
      (fun t ht => absurd ht (List.not_mem_nil t))

/-- Witness for C5 at the sample registry (closed, roots registered) and
the sample single-query document. -/
theorem c5_witness :
    (reg0.basic_type_by_typename fieldA.ty).isSome = true ∧
    visit 9 VisitorNil () (VisitorContext.new reg0 docQ) docQ ≠ .panicked :=
  ⟨c5_base_type_lookup_safe.1 reg0 tyQuery "a" fieldA
      (by unfold registryClosed; decide) ⟨"Query", rfl⟩ rfl,
   c5_base_type_lookup_safe.2 Unit 9 VisitorNil () reg0 docQ
      (by unfold registryClosed; decide) (by unfold rootsOk; decide)⟩

end AsyncGraphql
